import Mathlib

/-!
Verification of the protocol client and device-state synchronization engine of
the `hass_onkyo_ng` integration (`custom_components/hass_onkyo_ng/onkyo.py`).

The development shallowly embeds the Python code:
* dictionaries become function maps (`String → Option _`) or association
  lists where insertion order matters;
* the `defaultdict(OnkyoReceiver.SyncCommand)` correlation table
  `_sync_commands` becomes `SyncTable`;
* fallible Python code (statements that may raise `ValueError`, which
  `_on_message_async` catches) returns `Option`;
* the cyclic Python object graph `ReceiverZone.sources` /
  `ReceiverSource.zones` is broken by storing numeric ids in the
  association lists.

External collaborators (the `eiscp` wire library, `xml.etree`, asyncio,
Home Assistant) are modelled at their call boundary, as the spec directs.
-/

set_option autoImplicit false

namespace Onkyo

/-- `OnkyoReceiver.SyncCommand` (onkyo.py lines 453-468): a correlation
entry holding the registered waiter events and the result installed by
`_set_result`.  Waiter events are identified by numeric handles. -/
structure SyncCommand where
  eventList : List Nat
  result : Option String
  deriving DecidableEq, Repr

/-- `self._sync_commands`, a `defaultdict(OnkyoReceiver.SyncCommand)`
mapping a 3-character reply prefix to its correlation entry. -/
def SyncTable : Type := String → Option SyncCommand

/-- The empty correlation table (fresh receiver). -/
def emptySyncTable : SyncTable := fun _ => none

/-- Reading `self._sync_commands[p]` on a `defaultdict`: an absent key
yields a fresh default `SyncCommand()`. -/
def syncGet (t : SyncTable) (p : String) : SyncCommand :=
  (t p).getD { eventList := [], result := none }

/-- The registration step of `raw_async` (onkyo.py lines 378-381):
`sync_command = self._sync_commands[raw_command[:3]]` followed by
`sync_command.add_event(event)`.  The `defaultdict` access materialises the
entry, and `add_event` appends the waiter's event handle. -/
def rawAsyncRegister (t : SyncTable) (raw : String) (eid : Nat) : SyncTable :=
  fun q =>
    if q = raw.take 3 then
      some { syncGet t (raw.take 3) with
             eventList := (syncGet t (raw.take 3)).eventList ++ [eid] }
    else t q

/-- The correlation check at the tail of `_on_message_async`
(onkyo.py lines 305-309): `message_prefix = message[:3]`; if the prefix is
a key of `_sync_commands` the entry is popped and `_set_result(message)`
installs the full message as its result (setting every waiter event).
Returns the updated table and the popped, resolved entry (if any). -/
def syncCheck (t : SyncTable) (msg : String) : SyncTable × Option SyncCommand :=
  match t (msg.take 3) with
  | some sc =>
    (fun q => if q = msg.take 3 then none else t q, some { sc with result := some msg })
  | none => (t, none)

/-- The read loop delivering a sequence of inbound messages to the
correlation check of `_on_message_async`, in wire order; collects every
popped (resolved) entry. -/
def processArrivals (t : SyncTable) : List String → SyncTable × List SyncCommand
  | [] => (t, [])
  | m :: rest =>
    let step := syncCheck t m
    let further := processArrivals step.1 rest
    (further.1, (match step.2 with | some sc => [sc] | none => []) ++ further.2)

/-- Errors surfaced by the synchronous command path. -/
inductive CmdError where
  | timeoutErr
  deriving DecidableEq, Repr

/-- `asyncio.wait_for(self.raw_async(raw_command), timeout)` in
`command_async` (onkyo.py lines 388-395): `arrivals` are the messages the
read loop observes before the deadline; if none of them carries the
awaited prefix the call raises `asyncio.TimeoutError`, otherwise the
waiter is woken with the first matching message. -/
def awaitWithTimeout (arrivals : List String) (pfx : String) : Except CmdError String :=
  match arrivals.find? (fun m => m.take 3 = pfx) with
  | some m => .ok m
  | none => .error .timeoutErr

/-- What `command_async`'s timeout path does to `_sync_commands`: the
`asyncio.wait_for` cancellation only cancels the awaiting task; no code in
`command_async`, `raw_async` or `SyncCommand` deletes the registered entry
(onkyo.py lines 375-395 contain no removal; the only `pop` is in
`_on_message_async` line 308). -/
def tableAfterTimeout (t : SyncTable) : SyncTable := t

/-- The operations `raw_async` performs, in program order
(onkyo.py lines 375-386): waiter registration, then the socket send, then
suspension on the event. -/
inductive RawAction where
  | registerWaiter (pfx : String) (eid : Nat)
  | sendRaw (raw : String)
  | awaitEvent (eid : Nat)
  deriving DecidableEq, Repr

/-- Test for the registration action. -/
def RawAction.isRegister : RawAction → Bool
  | .registerWaiter _ _ => true
  | _ => false

/-- Test for the send action. -/
def RawAction.isSend : RawAction → Bool
  | .sendRaw _ => true
  | _ => false

/-- `raw_async` as a trace of its operations in source order
(onkyo.py lines 375-386): it computes the prefix, registers the waiter
(lines 378-381), sends the raw command (line 382) and awaits the event
(line 383). -/
def rawAsyncActions (raw : String) (eid : Nat) : List RawAction :=
  [.registerWaiter (raw.take 3) eid, .sendRaw raw, .awaitEvent eid]

/-- `OnkyoReceiver.ReceiverZone` (onkyo.py lines 23-31).  The Python
object holds a list of `ReceiverSource` objects; since the Python object
graph is cyclic (each source also lists its zones), the embedding stores
the numeric ids of the associated sources instead. -/
structure ReceiverZone where
  id : Nat
  name : String
  volmax : Option Nat
  sourceIds : List Nat
  deriving DecidableEq, Repr

/-- `OnkyoReceiver.ReceiverSource` (onkyo.py lines 33-40), with the
zone association kept as numeric ids (see `ReceiverZone`). -/
structure ReceiverSource where
  id : Nat
  name : String
  zoneIds : List Nat
  deriving DecidableEq, Repr

/-- `OnkyoReceiver.ReceiverInfo` (onkyo.py lines 42-52). -/
structure ReceiverInfo where
  model : String
  serial : String
  productid : String
  macaddress : String
  zones : List ReceiverZone
  sources : List ReceiverSource
  deriving DecidableEq, Repr

/-- A `<zone .../>` element of the self-description document, with the
attribute conversions `int(attrib)` / `int(attrib, 16)` that
`ReceiverInfo.from_xml` performs already applied (XML parsing by
`xml.etree` and integer parsing are external collaborators). -/
structure XmlZoneElem where
  value : Nat
  id : Nat
  name : String
  volmax : Nat
  deriving DecidableEq, Repr

/-- A `<selector .../>` element of the self-description document; `zone`
is the zone-membership bitmask `int(source.attrib['zone'], 16)`. -/
structure XmlSelectorElem where
  value : Nat
  id : Nat
  name : String
  zone : Nat
  deriving DecidableEq, Repr

/-- The self-description document handed to `ReceiverInfo.from_xml`,
abstracted past the `xml.etree` layer. -/
structure XmlDoc where
  model : String
  serial : String
  productid : String
  macaddress : String
  zonelist : List XmlZoneElem
  selectorlist : List XmlSelectorElem
  deriving DecidableEq, Repr

/-- The membership test `source_zones & (1 << (zone_id - 1))` of
`ReceiverInfo.from_xml` (onkyo.py line 85), truthy iff nonzero.  For
`zid = 0` CPython would raise (`1 << -1`); zone ids are 1-based, and the
theorems only use `zid ≥ 1`, where `Nat` subtraction agrees. -/
def zoneBit (mask zid : Nat) : Bool := mask &&& (1 <<< (zid - 1)) != 0

/-- Key insertion order of a Python dict built by repeated assignment:
first occurrences, in order. -/
def dedupFirst : List Nat → List Nat
  | [] => []
  | x :: xs => x :: (dedupFirst xs).filter (fun y => y ≠ x)

/-- The zone objects built by `ReceiverInfo.from_xml` (onkyo.py lines
63-88) over the included (`value > 0`) zone elements.  `zone_map[id]`
retains the last element with a given id, and only that object receives
the `sources.append` calls; an earlier duplicate stays in the `zones`
list with an empty source list.  A source is appended to a zone exactly
when the source's bitmask has bit `id - 1` set, in selector order. -/
def buildZones : List XmlZoneElem → List XmlSelectorElem → List ReceiverZone
  | [], _ => []
  | z :: rest, srcs =>
    { id := z.id, name := z.name.toLower, volmax := some z.volmax,
      sourceIds :=
        if rest.all (fun z2 => z2.id ≠ z.id) then
          (srcs.filter (fun s => zoneBit s.zone z.id)).map (fun s => s.id)
        else [] } :: buildZones rest srcs

/-- `ReceiverInfo.from_xml` (onkyo.py lines 54-89): zone and selector
elements with `value = 0` are dropped; each kept source is associated
with every kept zone id whose bit is set in the source's zone bitmask
(iteration over `zone_map.keys()`, i.e. first-occurrence order of the
kept zone ids), and symmetrically each kept zone collects the matching
sources in selector order. -/
def fromXml (doc : XmlDoc) : ReceiverInfo :=
  { model := doc.model
    serial := doc.serial
    productid := doc.productid
    macaddress := doc.macaddress
    zones := buildZones (doc.zonelist.filter (fun z => 0 < z.value))
      (doc.selectorlist.filter (fun s => 0 < s.value))
    sources := (doc.selectorlist.filter (fun s => 0 < s.value)).map (fun s =>
      { id := s.id, name := s.name,
        zoneIds := (dedupFirst ((doc.zonelist.filter (fun z => 0 < z.value)).map
            (fun z => z.id))).filter (fun zid => zoneBit s.zone zid) }) }

/-- The result dict of `_parse_audio_information` (onkyo.py lines
336-343); missing tuple positions are `None` (`_tuple_get` default). -/
structure AudioInfo where
  format : Option String
  inputFrequency : Option String
  inputChannels : Option String
  listeningMode : Option String
  outputChannels : Option String
  outputFrequency : Option String
  deriving DecidableEq, Repr

/-- The result dict of `_parse_video_information` (onkyo.py lines
352-360). -/
structure VideoInfo where
  inputResolution : Option String
  inputColorSchema : Option String
  inputColorDepth : Option String
  outputResolution : Option String
  outputColorSchema : Option String
  outputColorDepth : Option String
  pictureMode : Option String
  deriving DecidableEq, Repr

/-- A decoded attribute value as stored in `self.data`.  `nil` is
Python's `None` stored as a value (distinct from an absent key). -/
inductive PValue where
  | nil
  | str (s : String)
  | boolv (b : Bool)
  | natv (n : Nat)
  | ratv (q : ℚ)
  | strList (l : List String)
  | ainfo (i : AudioInfo)
  | vinfo (i : VideoInfo)
  | rinfo (r : ReceiverInfo)
  deriving DecidableEq, Repr

/-- A top-level entry of `self.data`: either a nested per-zone attribute
dict or a flat value (the dock branch stores `ReceiverInfo`, name and
identifier directly at top level). -/
inductive TopVal where
  | attrs (m : String → Option PValue)
  | flat (v : PValue)

/-- `self.data`, the state-store snapshot: a dict of dicts, embedded as
a function map. -/
abbrev Data : Type := String → Option TopVal

/-- A per-message `updates = defaultdict(dict)` (onkyo.py line 236),
kept as an association list because Python dict insertion order and
nonemptiness (`if updates:`) matter. -/
inductive UpdTop where
  | attrs (l : List (String × PValue))
  | flat (v : PValue)

/-- The updates dict accumulated by `_on_message_async`. -/
abbrev Updates : Type := List (String × UpdTop)

/-- Assignment `d[a] = v` on an attribute association list. -/
def updSetAttr (l : List (String × PValue)) (a : String) (v : PValue) :
    List (String × PValue) :=
  if l.any (fun p => p.1 = a) then
    l.map (fun p => if p.1 = a then (a, v) else p)
  else l ++ [(a, v)]

/-- `updates[zk][a] = v` on a `defaultdict(dict)`: the `zk` slot is
materialised as a dict if absent. -/
def updSetZone (u : Updates) (zk a : String) (v : PValue) : Updates :=
  if u.any (fun p => p.1 = zk) then
    u.map (fun p =>
      if p.1 = zk then
        (zk, match p.2 with
             | .attrs l => UpdTop.attrs (updSetAttr l a v)
             | .flat _ => UpdTop.attrs (updSetAttr [] a v))
      else p)
  else u ++ [(zk, .attrs (updSetAttr [] a v))]

/-- Top-level assignment `updates[k] = v` with a flat value. -/
def updSetFlat (u : Updates) (k : String) (v : PValue) : Updates :=
  if u.any (fun p => p.1 = k) then
    u.map (fun p => if p.1 = k then (k, UpdTop.flat v) else p)
  else u ++ [(k, .flat v)]

/-- Modelled from the spec: setting each attribute present in an update
dict into an existing attribute map, in order. -/
def mergeAttrs (m : String → Option PValue) (l : List (String × PValue)) :
    String → Option PValue :=
  l.foldl (fun m2 av => fun x => if x = av.1 then some av.2 else m2 x) m

/-- Modelled from the spec: merging one top-level update entry — a dict
entry deep-merges into the existing dict (or a fresh one), any other
entry replaces the existing value. -/
def mergeTop (d : Data) (kv : String × UpdTop) : Data :=
  match kv.2 with
  | .flat v => fun q => if q = kv.1 then some (.flat v) else d q
  | .attrs l => fun q =>
      if q = kv.1 then
        some (.attrs (mergeAttrs
          (match d kv.1 with
           | some (.attrs m) => m
           | _ => fun _ => none) l))
      else d q

/-- Modelled from the spec: `dict_merge` is imported from
`custom_components/hass_onkyo_ng/util.py`, which is not among the source
files.  Spec section 4.5 prescribes the operation: "deep-merges into the
current snapshot (replacing only the attributes present in the update,
leaving others intact)". -/
def dictMerge : Data → Updates → Data
  | d, [] => d
  | d, kv :: rest => dictMerge (mergeTop d kv) rest

/-- `_ZONE_NAMES` (onkyo.py line 18). -/
def zoneNamesList : List String := ["main", "zone2", "zone3", "zone4"]

/-- The per-zone attribute dict installed by `__init__`
(onkyo.py lines 155-166): every attribute present with value `None`,
except `sound_mode_list` which starts as an empty list. -/
def initialZoneAttrs : String → Option PValue := fun a =>
  if a = "power" ∨ a = "audio_info" ∨ a = "video_info" ∨ a = "mute"
      ∨ a = "volume" ∨ a = "source" ∨ a = "sound_mode" then some .nil
  else if a = "sound_mode_list" then some (.strList [])
  else none

/-- `self.data` right after `__init__` (onkyo.py lines 150-166). -/
def initialData : Data := fun k =>
  if k = "preset" ∨ k = "hdmi_out" then some (.flat .nil)
  else if k = "receiver_information" then some (.attrs (fun _ => none))
  else if k = "zone_main" ∨ k = "zone_zone2" ∨ k = "zone_zone3" ∨ k = "zone_zone4" then
    some (.attrs initialZoneAttrs)
  else none

/-- An element of the payload tuple handed to `_parse_onkyo_payload`:
the `eiscp` library delivers attribute values as a string, a tuple of
strings, or a number. -/
inductive PElem where
  | str (s : String)
  | strs (l : List String)
  | num (q : ℚ)
  deriving DecidableEq, Repr

/-- The duck-typed payload argument of `_parse_onkyo_payload`
(onkyo.py lines 311-324): either the bool the `eiscp` library substitutes
for an unsupported command, or a tuple. -/
inductive Payload where
  | boolv (b : Bool)
  | tup (elems : List PElem)
  deriving DecidableEq, Repr

/-- The three-way (plus raw) result of `_parse_onkyo_payload`:
`unsupported` is Python `False`, `absent` is Python `None`, `vals` the
comma-split list, `rawElem` the second tuple component when it is not a
string. -/
inductive ParsedPayload where
  | unsupported
  | absent
  | vals (l : List String)
  | rawElem (e : PElem)
  deriving DecidableEq, Repr

/-- `_parse_onkyo_payload` (onkyo.py lines 311-324): a bool payload means
the command is unsupported; a tuple of fewer than 2 elements means no
value; a string second component is split on commas; otherwise the
second component is returned as-is. -/
def parseOnkyoPayload : Payload → ParsedPayload
  | .boolv _ => .unsupported
  | .tup [] => .absent
  | .tup [_] => .absent
  | .tup (_ :: .str s :: _) => .vals (s.splitOn ",")
  | .tup (_ :: e :: _) => .rawElem e

/-- `_tuple_get` (onkyo.py lines 326-328) with the default `None`. -/
def tupleGet (l : List String) (i : Nat) : Option String := l.get? i

/-- The dict built by `_parse_audio_information` from the value list
(onkyo.py lines 336-343). -/
def audioInfoOf (l : List String) : AudioInfo :=
  { format := tupleGet l 1, inputFrequency := tupleGet l 2,
    inputChannels := tupleGet l 3, listeningMode := tupleGet l 4,
    outputChannels := tupleGet l 5, outputFrequency := tupleGet l 6 }

/-- The dict built by `_parse_video_information` from the value list
(onkyo.py lines 352-360). -/
def videoInfoOf (l : List String) : VideoInfo :=
  { inputResolution := tupleGet l 1, inputColorSchema := tupleGet l 2,
    inputColorDepth := tupleGet l 3, outputResolution := tupleGet l 5,
    outputColorSchema := tupleGet l 6, outputColorDepth := tupleGet l 7,
    pictureMode := tupleGet l 8 }

/-- `_parse_audio_information` (onkyo.py lines 330-344).  Takes and
returns the `self._audio_info_supported` flag: the code assigns `False`
to the flag when `_parse_onkyo_payload` returned `False` OR `None`, and
leaves it untouched otherwise.  A non-indexable raw element would raise
`TypeError` in CPython; that case is unreachable from the call site
(the attribute value there is a string or tuple of strings) and is
mapped to `(none, supported)`. -/
def parseAudioInformation (p : Payload) (supported : Bool) :
    Option AudioInfo × Bool :=
  match parseOnkyoPayload p with
  | .unsupported => (none, false)
  | .absent => (none, false)
  | .vals l => (some (audioInfoOf l), supported)
  | .rawElem (.strs l) => (some (audioInfoOf l), supported)
  | .rawElem _ => (none, supported)

/-- `_parse_video_information` (onkyo.py lines 346-361), managing
`self._video_info_supported` the same way. -/
def parseVideoInformation (p : Payload) (supported : Bool) :
    Option VideoInfo × Bool :=
  match parseOnkyoPayload p with
  | .unsupported => (none, false)
  | .absent => (none, false)
  | .vals l => (some (videoInfoOf l), supported)
  | .rawElem (.strs l) => (some (videoInfoOf l), supported)
  | .rawElem _ => (none, supported)

/-- One hexadecimal digit, as accepted by Python `int(c, 16)`. -/
def hexDigit (c : Char) : Option Nat :=
  if '0' ≤ c ∧ c ≤ '9' then some (c.toNat - '0'.toNat)
  else if 'a' ≤ c ∧ c ≤ 'f' then some (c.toNat - 'a'.toNat + 10)
  else if 'A' ≤ c ∧ c ≤ 'F' then some (c.toNat - 'A'.toNat + 10)
  else none

/-- Python `int(s, 16)` on a plain hex string: `none` models the
`ValueError` on an empty or non-hexadecimal string. -/
def hexToNat? (s : String) : Option Nat :=
  if s.isEmpty then none
  else s.data.foldl
    (fun acc c =>
      match acc, hexDigit c with
      | some a, some d => some (a * 16 + d)
      | _, _ => none)
    (some 0)

/-- A decoded attribute value as delivered by the external `eiscp`
codec: a string, a number, a tuple of strings, or (for the dock
receiver-information reply) the XML document, which the code then parses
with the external `xml.etree` (the two external layers are composed
here, so the attribute carries the structured document). -/
inductive Attrib where
  | s (v : String)
  | n (v : ℚ)
  | ls (v : List String)
  | xml (d : XmlDoc)
  deriving DecidableEq, Repr

/-- The external wire codec `eiscp.core.iscp_to_command(msg,
with_zone=True)`, modelled on a representative subset of the external
`eiscp.commands` database (the command table is external, versioned
data, not code of this repository): PWR / AMT / MVL / SLI / IFA / IFV /
LMD of the main zone.  An unknown prefix, or a payload outside the
declared value domain, raises `ValueError` in the library, i.e. `none`
here. -/
def iscpToCommand (msg : String) : Option (String × String × Attrib) :=
  if msg.take 3 = "PWR" then
    if msg.drop 3 = "01" then some ("main", "system-power", .s "on")
    else if msg.drop 3 = "00" then some ("main", "system-power", .s "standby")
    else none
  else if msg.take 3 = "AMT" then
    if msg.drop 3 = "01" then some ("main", "audio-muting", .s "on")
    else if msg.drop 3 = "00" then some ("main", "audio-muting", .s "off")
    else none
  else if msg.take 3 = "MVL" then
    if msg.drop 3 = "N/A" then some ("main", "master-volume", .s "N/A")
    else
      match hexToNat? (msg.drop 3) with
      | some n => some ("main", "master-volume", .n (n : ℚ))
      | none => none
  else if msg.take 3 = "SLI" then
    match hexToNat? (msg.drop 3) with
    | some _ => some ("main", "input-selector", .s (msg.drop 3))
    | none => none
  else if msg.take 3 = "IFA" then some ("main", "audio-information", .s (msg.drop 3))
  else if msg.take 3 = "IFV" then some ("main", "video-information", .s (msg.drop 3))
  else if msg.take 3 = "LMD" then some ("main", "listening-mode", .s (msg.drop 3))
  else none

/-- The second component of the `(command, attrib)` tuple the handler
passes to the payload parsers, in the parsers' duck-typed terms. -/
def pelemOfAttrib : Attrib → PElem
  | .s v => .str v
  | .ls l => .strs l
  | .n q => .num q
  | .xml _ => .str ""

/-- An attribute value stored directly into the updates dict (the
`preset` branch). -/
def pvalueOfAttrib : Attrib → PValue
  | .s v => .str v
  | .ls l => .strList l
  | .n q => .ratv q
  | .xml _ => .nil

/-- Python `",".join(attrib)` in the hdmi-output-selector branch
(onkyo.py line 264): joining a tuple joins its elements; joining a
string joins its characters.  Any other operand raises `TypeError` in
CPython (unreachable: the codec delivers a string or tuple there),
mapped to `none`. -/
def joinComma : Attrib → Option String
  | .s v => some (String.intercalate "," (v.data.map (fun c => String.mk [c])))
  | .ls l => some (String.intercalate "," l)
  | _ => none

/-- Python `"_".join(sound_modes)` in the listening-mode branch
(onkyo.py line 269): defined on the list results of
`_parse_onkyo_payload`; `False` / `None` would raise `TypeError` in
CPython (unreachable: the codec delivers a string or tuple attribute),
mapped to `none`. -/
def joinUnderscore : ParsedPayload → Option String
  | .vals l => some (String.intercalate "_" l)
  | .rawElem (.strs l) => some (String.intercalate "_" l)
  | _ => none

/-- `re.findall('..', s)`: consecutive non-overlapping character pairs,
a trailing odd character dropped (onkyo.py line 279). -/
def chunkPairs : List Char → List (Char × Char)
  | c1 :: c2 :: rest => (c1, c2) :: chunkPairs rest
  | _ => []

/-- The byte string assembled by the fl-display-information branch
(onkyo.py lines 278-280): each hex pair becomes one byte;
a non-hex pair raises `ValueError` (caught by the handler). -/
def displayBytes (s : String) : Option (List Nat) :=
  (chunkPairs s.data).foldr
    (fun p acc =>
      match hexDigit p.1, hexDigit p.2, acc with
      | some d1, some d2, some rest => some ((d1 * 16 + d2) :: rest)
      | _, _, _ => none)
    (some [])

/-- `bytes.decode('utf-8')` (onkyo.py line 281), modelled on the ASCII
plane; multi-byte sequences are treated as the decode-failure path
(`UnicodeDecodeError` is a `ValueError` and is caught by the handler). -/
def asciiDecode (bs : List Nat) : Option String :=
  if bs.all (fun b => b < 128) then some (String.mk (bs.map Char.ofNat)) else none

/-- The mutable fields of `OnkyoReceiver` that `_on_message_async`
reads or writes (onkyo.py `__init__`): the state store `data`, the
correlation table, `self._sound_modes`, `self._receiver_info`, the
three capability flags, the listener list, whether a Home Assistant
event loop is available, and the volume scaling parameters. -/
structure RecvState where
  data : Data
  syncTable : SyncTable
  soundModes : String → Option (List String)
  receiverInfo : Option ReceiverInfo
  hdmiOutSupported : Bool
  audioInfoSupported : Bool
  videoInfoSupported : Bool
  listeners : List Nat
  hassLoop : Bool
  receiverMaxVolume : ℚ
  maxVolume : ℚ

/-- The observable operations `_on_message_async` performs, in program
order: the `dict_merge` into `self.data`, the per-listener dispatch of
the post-merge snapshot, the "Update lost" warning, the `store_data`
call, and the resolution of a pending synchronous command. -/
inductive Effect where
  | mergeData (u : Updates)
  | notifyListener (id : Nat) (snapshot : Data)
  | updateLostWarning
  | storeData
  | resolveSync (pfx : String) (message : String)

/-- Test for the merge effect. -/
def Effect.isMerge : Effect → Bool
  | .mergeData _ => true
  | _ => false

/-- Test for a listener notification effect. -/
def Effect.isNotify : Effect → Bool
  | .notifyListener _ _ => true
  | _ => false

/-- Test for the synchronous-waiter resolution effect. -/
def Effect.isResolve : Effect → Bool
  | .resolveSync _ _ => true
  | _ => false

/-- The `try` block of `_on_message_async` (onkyo.py lines 237-294):
decodes the message and computes the per-branch updates dict, the
persistent state mutations, and whether `store_data` was called.
`none` is the `ValueError` path (line 293): the exception is caught,
logged and swallowed; every `ValueError` raised inside a branch occurs
before that branch's state mutations, so the all-or-nothing `Option`
is faithful. -/
def tryBranch (st : RecvState) (msg : String) :
    Option (RecvState × Updates × Bool) :=
  match iscpToCommand msg with
  | none => none
  | some (zone, command, attrib) =>
    if zone ∈ zoneNamesList then
      let zk := "zone_" ++ zone
      if command = "system-power" ∨ command = "power" then
        some (st, updSetZone [] zk "power"
          (.str (if attrib = .s "on" then "power_on" else "power_off")), false)
      else if command = "audio-information" then
        let r := parseAudioInformation (.tup [.str command, pelemOfAttrib attrib])
          st.audioInfoSupported
        some ({ st with audioInfoSupported := r.2 },
          updSetZone [] zk "audio_info"
            (match r.1 with | some i => .ainfo i | none => .nil), false)
      else if command = "video-information" then
        let r := parseVideoInformation (.tup [.str command, pelemOfAttrib attrib])
          st.videoInfoSupported
        some ({ st with videoInfoSupported := r.2 },
          updSetZone [] zk "video_info"
            (match r.1 with | some i => .vinfo i | none => .nil), false)
      else if command = "audio-muting" ∨ command = "muting" then
        some (st, updSetZone [] zk "mute" (.boolv (attrib = .s "on")), false)
      else if command = "master-volume" ∨ command = "volume" then
        if attrib = .s "N/A" then
          some (st, updSetZone [] zk "volume" (.ratv 0), false)
        else
          match attrib with
          | .n q => some (st, updSetZone [] zk "volume"
              (.ratv (q / (st.receiverMaxVolume * st.maxVolume / 100))), false)
          | _ => none
      else if command = "input-selector" ∨ command = "selector" then
        match hexToNat? (msg.takeRight 2) with
        | some sid => some (st, updSetZone [] zk "source" (.natv sid), false)
        | none => none
      else if command = "preset" then
        some (st, updSetZone [] zk "preset" (pvalueOfAttrib attrib), false)
      else if command = "hdmi-output-selector" then
        match joinComma attrib with
        | some j =>
          some ({ st with hdmiOutSupported :=
                    if attrib = .s "N/A" then false else st.hdmiOutSupported },
            updSetZone [] zk "hdmi_out" (.str j), false)
        | none => none
      else if command = "listening-mode" then
        match joinUnderscore (parseOnkyoPayload
            (.tup [.str command, pelemOfAttrib attrib])) with
        | some sm =>
          if sm ∈ (st.soundModes zk).getD [] then
            some (st, updSetZone [] zk "sound_mode" (.str sm), false)
          else
            some ({ st with soundModes := fun q =>
                      if q = zk then some ((st.soundModes zk).getD [] ++ [sm])
                      else st.soundModes q },
              updSetZone
                (updSetZone [] zk "sound_mode_list"
                  (.strList ((st.soundModes zk).getD [] ++ [sm])))
                zk "sound_mode" (.str sm),
              true)
        | none => none
      else if command = "fl-display-information" then
        match displayBytes (msg.drop 3) with
        | some bs =>
          match asciiDecode bs with
          | some txt => some (st, updSetZone [] zk "display" (.str txt), false)
          | none => none
        | none => none
      else
        some (st, [], false)
    else if zone = "dock" then
      if command = "receiver-information" then
        match attrib with
        | .xml doc =>
          some ({ st with receiverInfo := some (fromXml doc) },
            updSetFlat
              (updSetFlat
                (updSetFlat [] "receiver_information" (.rinfo (fromXml doc)))
                "name" (.str (fromXml doc).model))
              "identifier" (.str (fromXml doc).serial),
            true)
        | _ => none
      else
        some (st, [], false)
    else
      some (st, [], false)

/-- The state part of lines 296-303 of `_on_message_async`: a nonempty
updates dict is `dict_merge`d into `self.data`. -/
def mergeState (st1 : RecvState) (upd : Updates) : RecvState :=
  if upd.isEmpty then st1 else { st1 with data := dictMerge st1.data upd }

/-- The observable part of lines 296-303: for a nonempty updates dict,
the merge followed by per-listener dispatch of the post-merge snapshot
(or the "Update lost" warning without an event loop). -/
def mergeEffects (st1 : RecvState) (upd : Updates) : List Effect :=
  if upd.isEmpty then []
  else if st1.hassLoop then
    Effect.mergeData upd ::
      st1.listeners.map (fun l => Effect.notifyListener l (dictMerge st1.data upd))
  else [Effect.mergeData upd, Effect.updateLostWarning]

/-- Lines 296-303 of `_on_message_async`: if the updates dict is
nonempty, `dict_merge` it into `self.data` and then either dispatch
every registered listener with the (post-merge) `self.data`, or log
"Update lost" when no event loop is available. -/
def mergePhase (st1 : RecvState) (upd : Updates) : RecvState × List Effect :=
  (mergeState st1 upd, mergeEffects st1 upd)

/-- Lines 305-309 of `_on_message_async`: the correlation check,
`syncCheck`, applied to the receiver state. -/
def syncPhase (st2 : RecvState) (msg : String) : RecvState × List Effect :=
  match (syncCheck st2.syncTable msg).2 with
  | some _ =>
    ({ st2 with syncTable := (syncCheck st2.syncTable msg).1 },
     [Effect.resolveSync (msg.take 3) msg])
  | none => (st2, [])

/-- `_on_message_async` (onkyo.py lines 234-309): the try block, then
the merge-and-dispatch phase, then the correlation check — in that
program order, which the effect list records. -/
def onMessageAsync (st : RecvState) (msg : String) : RecvState × List Effect :=
  match tryBranch st msg with
  | some (st1, upd, sd) =>
    ((syncPhase (mergePhase st1 upd).1 msg).1,
     (if sd then [Effect.storeData] else []) ++ (mergePhase st1 upd).2
       ++ (syncPhase (mergePhase st1 upd).1 msg).2)
  | none =>
    ((syncPhase st msg).1, (syncPhase st msg).2)

/-- The read loop feeding consecutive messages to `_on_message_async`. -/
def processMessages (st : RecvState) : List String → RecvState
  | [] => st
  | m :: rest => processMessages (onMessageAsync st m).1 rest

/-- A receiver state as built by `__init__` (fresh data and correlation
table, one registered listener, an event loop available, default volume
scaling), here with one waiter registered for prefix "PWR". -/
def pwrWaiterState : RecvState :=
  { data := initialData
    syncTable := rawAsyncRegister emptySyncTable "PWRQSTN" 0
    soundModes := fun _ => none
    receiverInfo := none
    hdmiOutSupported := true
    audioInfoSupported := true
    videoInfoSupported := true
    listeners := [0]
    hassLoop := true
    receiverMaxVolume := 80
    maxVolume := 100 }

/-- Attribute lookup in a snapshot: `data[zk][a]`. -/
def dataZoneAttr (d : Data) (zk a : String) : Option PValue :=
  match d zk with
  | some (.attrs m) => m a
  | _ => none

/-- The first partial update of the spec's paradigm merge example. -/
def updPowerOn : Updates := [("zone_main", .attrs [("power", .str "on")])]

/-- The second partial update of the spec's paradigm merge example. -/
def updVolume50 : Updates := [("zone_main", .attrs [("volume", .natv 50)])]

/-- The spec's example self-description document: zones 1 and 2
installed, a third zone with `value="0"`, a source id 3 with zone
bitmask 0b11, and a second selector with `value="0"`. -/
def c6doc : XmlDoc :=
  { model := "TX-NR616"
    serial := "0001"
    productid := "P1"
    macaddress := "AABBCC"
    zonelist :=
      [ { value := 1, id := 1, name := "Main", volmax := 100 },
        { value := 1, id := 2, name := "Zone2", volmax := 80 },
        { value := 0, id := 3, name := "Zone3", volmax := 0 } ]
    selectorlist :=
      [ { value := 1, id := 3, name := "CD", zone := 3 },
        { value := 0, id := 4, name := "OFF", zone := 3 } ] }

/-- One entry of a selector command's declared value set in the
external command table: the hex id key of the `values` dict and the
entry's `name` field (a plain string — a singleton here — or a tuple of
strings). -/
structure CmdValue where
  sid : String
  name : List String
  deriving DecidableEq, Repr

/-- The external `eiscp.commands.COMMANDS` database, abstracted to what
`ReceiverInfo.default` reads: zone name → command name → the declared
value entries in dict order.  The table is external, versioned data, so
it is a parameter of the development. -/
abbrev CmdTable : Type := String → String → List CmdValue

/-- The `source_selector_cmd` dict of `ReceiverInfo.default`
(onkyo.py line 93). -/
def sourceSelectorCmd (zname : String) : String :=
  if zname = "main" then "SLI"
  else if zname = "zone2" then "SLZ"
  else if zname = "zone3" then "SL3"
  else "SL4"

/-- Zone naming in `ReceiverInfo.default` (onkyo.py line 99). -/
def defaultZoneName (zid : Nat) : String :=
  if zid = 1 then "main" else "zone" ++ toString zid

/-- The name normalisation of `ReceiverInfo.default` (lines 106-109):
tuple names joined with "/", then upper-cased (a plain string is a
singleton list, for which the join is the identity). -/
def normName (n : List String) : String := (String.intercalate "/" n).toUpper

/-- The reserved tokens skipped by `ReceiverInfo.default` (line 105). -/
def reservedSid (s : String) : Bool := s = "UP" || s = "DOWN" || s = "QSTN"

/-- A value of the `source_mapping` dict of `ReceiverInfo.default`: the
shared synthetic source entry keyed by its hex id string. -/
structure SrcAcc where
  sid : String
  id : Nat
  name : String
  zoneIds : List Nat
  deriving DecidableEq, Repr

/-- The shared entry created on first sight of a value key (onkyo.py
lines 111-114): numeric id parsed from the hex key (a non-hex key would
raise `ValueError` in CPython, modelled by the `getD 0` default — the
external table only carries hex keys), name normalised from this zone's
table entry. -/
def freshSrc (zid : Nat) (v : CmdValue) : SrcAcc :=
  { sid := v.sid, id := (hexToNat? v.sid).getD 0,
    name := normName v.name, zoneIds := [zid] }

/-- Processing one zone's declared values into the shared
`source_mapping` (onkyo.py lines 104-117): reserved keys are skipped; a
first-seen key creates the shared entry; every zone declaring the key
appends its id to the shared entry's zone list. -/
def stepVals (zid : Nat) (vals : List CmdValue) (acc : List SrcAcc) : List SrcAcc :=
  vals.foldl
    (fun acc2 v =>
      if reservedSid v.sid then acc2
      else if acc2.any (fun e => e.sid = v.sid) then
        acc2.map (fun e =>
          if e.sid = v.sid then { e with zoneIds := e.zoneIds ++ [zid] } else e)
      else acc2 ++ [freshSrc zid v])
    acc

/-- The non-reserved value entries of a declared value list. -/
def nonresVals (vals : List CmdValue) : List CmdValue :=
  vals.filter (fun v => !reservedSid v.sid)

/-- The non-reserved hex id keys of a declared value list. -/
def nonresSids (vals : List CmdValue) : List String :=
  (nonresVals vals).map (fun v => v.sid)

/-- `source_mapping[s]`: the shared entry for key `s`, if present. -/
def accFind (acc : List SrcAcc) (s : String) : Option SrcAcc :=
  acc.find? (fun e => e.sid = s)

/-- The zone ids `range(1, 5)` of `ReceiverInfo.default` (line 96). -/
def defaultZoneIds : List Nat := [1, 2, 3, 4]

/-- `COMMANDS[zone_name][selector_cmd]['values']` for a zone id. -/
def zoneVals (tbl : CmdTable) (zid : Nat) : List CmdValue :=
  tbl (defaultZoneName zid) (sourceSelectorCmd (defaultZoneName zid))

/-- Folding the zones' declared values into the shared mapping. -/
def foldZones (tbl : CmdTable) (zids : List Nat) (acc : List SrcAcc) : List SrcAcc :=
  zids.foldl (fun a zid => stepVals zid (zoneVals tbl zid) a) acc

/-- The `source_mapping.values()` accumulated by `ReceiverInfo.default`
over zones 1-4, in first-seen (dict insertion) order. -/
def defaultSources (tbl : CmdTable) : List SrcAcc :=
  foldZones tbl defaultZoneIds []

/-- `ReceiverInfo.default` (onkyo.py lines 91-119): four zones named
main/zone2/zone3/zone4; each zone's source list is its own selector
command's non-reserved declared values (referencing the shared entries,
whose numeric ids coincide per key); the source list is the shared
`source_mapping.values()`; productid is "N/A" and the MAC address field
is the serial. -/
def defaultInfo (tbl : CmdTable) (model serial : String) : ReceiverInfo :=
  { model := model
    serial := serial
    productid := "N/A"
    macaddress := serial
    zones := defaultZoneIds.map (fun zid =>
      { id := zid, name := defaultZoneName zid, volmax := none,
        sourceIds := (nonresVals (zoneVals tbl zid)).map
          (fun v => (hexToNat? v.sid).getD 0) })
    sources := (defaultSources tbl).map (fun e =>
      { id := e.id, name := e.name, zoneIds := e.zoneIds }) }

/-- The UDP broadcast-discovery reply (`self._receiver_udp_info`), as
read by `get_all_receiver_info`: `model_name` and `identifier`. -/
structure UdpInfo where
  modelName : String
  identifier : String
  deriving DecidableEq, Repr

/-- The fallback at the end of `get_all_receiver_info` (onkyo.py lines
184-186): if no structured `ReceiverInfo` was obtained but a UDP
discovery reply exists, synthesize the default inventory from the
command table; otherwise keep what is there. -/
def fallbackInfo (tbl : CmdTable) (info : Option ReceiverInfo)
    (udp : Option UdpInfo) : Option ReceiverInfo :=
  match info, udp with
  | none, some u => some (defaultInfo tbl u.modelName u.identifier)
  | i, _ => i

/-- A small concrete command table: main declares BD/DVD (10), CD (23)
and the reserved UP/QSTN; zone2 declares CD (23) and the reserved DOWN;
zones 3 and 4 declare nothing. -/
def c8tbl : CmdTable := fun zname cmd =>
  if zname = "main" ∧ cmd = "SLI" then
    [ { sid := "10", name := ["BD", "DVD"] },
      { sid := "23", name := ["CD"] },
      { sid := "UP", name := ["UP"] },
      { sid := "QSTN", name := ["QSTN"] } ]
  else if zname = "zone2" ∧ cmd = "SLZ" then
    [ { sid := "23", name := ["CD"] },
      { sid := "DOWN", name := ["DOWN"] } ]
  else []

/-- The inventory-resolution fields of `OnkyoReceiver`:
`self._retrieved_receiver_info`, `self._receiver_info` and
`self._receiver_udp_info`. -/
structure ResolverState where
  retrieved : Bool
  info : Option ReceiverInfo
  udpInfo : Option UdpInfo
  deriving DecidableEq, Repr

/-- The operations of `get_all_receiver_info`, in program order: the
flag assignment (line 170), then the network queries of the retry loop
(lines 172-183). -/
inductive ResolverAction where
  | setRetrievedFlag
  | queryReceiverInformation
  | queryUdp
  deriving DecidableEq, Repr

/-- `get_all_receiver_info` (onkyo.py lines 168-186): a second call
finds the flag set and returns immediately issuing nothing; the first
call sets the flag (before any query), runs the receiver-information
query and the UDP discovery (the retry loop is compressed into `env`,
the outcome each of the two attempts eventually obtained —
`_on_message_async` installs an arriving structured info, and
`command_udp_info` keeps an already-present UDP reply), then applies
the default-inventory fallback. -/
def getAllReceiverInfo (tbl : CmdTable) (env : Option ReceiverInfo × Option UdpInfo)
    (st : ResolverState) : ResolverState × List ResolverAction :=
  if st.retrieved then (st, [])
  else
    ({ retrieved := true
       info := fallbackInfo tbl
         (match env.1 with | some i => some i | none => st.info)
         (match st.udpInfo with | some u => some u | none => env.2)
       udpInfo := match st.udpInfo with | some u => some u | none => env.2 },
     [.setRetrievedFlag, .queryReceiverInformation, .queryUdp])

/-- `get_receiver_info` (onkyo.py lines 188-190): awaits
`get_all_receiver_info`, then returns the cached `self._receiver_info`. -/
def getReceiverInfo (tbl : CmdTable) (env : Option ReceiverInfo × Option UdpInfo)
    (st : ResolverState) : ResolverState × Option ReceiverInfo :=
  ((getAllReceiverInfo tbl env st).1, (getAllReceiverInfo tbl env st).1.info)

/-- A receiver state before the first inventory resolution. -/
def freshResolverState : ResolverState :=
  { retrieved := false, info := none, udpInfo := none }

/-- A structured inventory used as a late-environment value. -/
def dummyInfo : ReceiverInfo :=
  { model := "X", serial := "0", productid := "P", macaddress := "M",
    zones := [], sources := [] }

/-- Errors of the modelled walk discovery. -/
inductive WalkError where
  | cmdFailed
  | exhausted
  deriving DecidableEq, Repr

/-- The device state mutated by walk discovery and restored afterwards. -/
structure DeviceState where
  power : Bool
  mute : Bool
  selector : String
  deriving DecidableEq, Repr

/-- The observable device operations of walk discovery. -/
inductive WalkAction where
  | advanceSelector
  | restore (prior : DeviceState)
  deriving DecidableEq, Repr

/-- Modelled from the spec: the recording loop of the legacy "walk the
dial" discovery, which is not present in the source files (onkyo.py has
no such routine).  Spec section 4.6: repeatedly advance the cyclic
selector, record each distinct decoded reply, and stop when the
first-seen value is observed again; a failed intermediate command
(`none` reply) aborts the walk. -/
def walkCore (first : String) (acc : List String) :
    List (Option String) → Except WalkError (List String)
  | [] => .error .exhausted
  | none :: _ => .error .cmdFailed
  | some r :: rest =>
    if r = first then .ok acc.reverse
    else if r ∈ acc then walkCore first acc rest
    else walkCore first (r :: acc) rest

/-- Modelled from the spec: the legacy walk discovery (absent from the
source files; spec section 4.6): walk the selector recording distinct
replies until the first-seen value repeats, and on every exit path —
success, a failed intermediate command, or exhaustion — restore the
device's prior power/mute/selector state. -/
def walkDiscovery (prior : DeviceState) (replies : List (Option String)) :
    Except WalkError (List String) × List WalkAction :=
  match replies with
  | [] => (.error .exhausted, [.restore prior])
  | none :: _ => (.error .cmdFailed, [.restore prior])
  | some r0 :: rest => (walkCore r0 [r0] rest, [.restore prior])

/-- The device state held before the example walk. -/
def priorExample : DeviceState :=
  { power := true, mute := false, selector := "CD" }

/-- Event handle `eid` is not registered anywhere in the table. -/
def FreshFor (t : SyncTable) (eid : Nat) : Prop :=
  ∀ q sc, t q = some sc → eid ∉ sc.eventList

theorem freshFor_empty (eid : Nat) : FreshFor emptySyncTable eid := by
  intro q sc h
  simp [emptySyncTable] at h

theorem syncCheck_fst_ne (t : SyncTable) (m p : String) (h : ¬ m.take 3 = p) :
    (syncCheck t m).1 p = t p := by
  unfold syncCheck
  cases ht : t (m.take 3) with
  | none => rfl
  | some sc =>
    simp only []
    rw [if_neg]
    intro hc
    exact h hc.symm

theorem syncCheck_fst_entry (t : SyncTable) (m q : String) (sc : SyncCommand)
    (h : (syncCheck t m).1 q = some sc) : t q = some sc := by
  unfold syncCheck at h
  cases ht : t (m.take 3) with
  | none => rw [ht] at h; exact h
  | some sc0 =>
    rw [ht] at h
    simp only [] at h
    by_cases hq : q = m.take 3
    · rw [if_pos hq] at h; exact absurd h (by simp)
    · rw [if_neg hq] at h; exact h

theorem syncCheck_snd_events (t : SyncTable) (m : String) (sc : SyncCommand)
    (h : (syncCheck t m).2 = some sc) :
    ∃ sc0, t (m.take 3) = some sc0 ∧ sc.eventList = sc0.eventList ∧ sc.result = some m := by
  unfold syncCheck at h
  cases ht : t (m.take 3) with
  | none => rw [ht] at h; exact absurd h (by simp)
  | some sc0 =>
    rw [ht] at h
    simp only [Option.some.injEq] at h
    exact ⟨sc0, rfl, by rw [← h], by rw [← h]⟩

theorem freshFor_syncCheck (t : SyncTable) (m : String) (eid : Nat)
    (h : FreshFor t eid) : FreshFor (syncCheck t m).1 eid := by
  intro q sc hq
  exact h q sc (syncCheck_fst_entry t m q sc hq)

theorem freshFor_processArrivals (arrivals : List String) (t : SyncTable) (eid : Nat)
    (h : FreshFor t eid) :
    ∀ sc ∈ (processArrivals t arrivals).2, eid ∉ sc.eventList := by
  induction arrivals generalizing t with
  | nil => intro sc hsc; simp [processArrivals] at hsc
  | cons a rest ih =>
    intro sc hsc
    simp only [processArrivals, List.mem_append] at hsc
    rcases hsc with hsc | hsc
    · cases hchk : (syncCheck t a).2 with
      | none => rw [hchk] at hsc; simp at hsc
      | some sc1 =>
        rw [hchk] at hsc
        simp at hsc
        obtain ⟨sc0, ht0, hev, _⟩ := syncCheck_snd_events t a sc1 hchk
        rw [hsc, hev]
        exact h _ sc0 ht0
    · exact ih (syncCheck t a).1 (freshFor_syncCheck t a eid h) sc hsc

/-- `eid` appears only (possibly) in the entry at key `p`. -/
def FreshExcept (t : SyncTable) (eid : Nat) (p : String) : Prop :=
  ∀ q sc, q ≠ p → t q = some sc → eid ∉ sc.eventList

theorem freshExcept_syncCheck (t : SyncTable) (m p : String) (eid : Nat)
    (h : FreshExcept t eid p) : FreshExcept (syncCheck t m).1 eid p := by
  intro q sc hq hsc
  exact h q sc hq (syncCheck_fst_entry t m q sc hsc)

theorem processArrivals_first_match (arrivals : List String) (t : SyncTable)
    (p : String) (eid : Nat) (sc1 : SyncCommand) (m : String)
    (htp : t p = some sc1) (hfx : FreshExcept t eid p)
    (hfind : arrivals.find? (fun x => x.take 3 = p) = some m) :
    (∃ sc ∈ (processArrivals t arrivals).2,
       sc.eventList = sc1.eventList ∧ sc.result = some m)
    ∧ ∀ sc ∈ (processArrivals t arrivals).2, eid ∈ sc.eventList →
        sc.eventList = sc1.eventList ∧ sc.result = some m := by
  induction arrivals generalizing t with
  | nil => simp at hfind
  | cons a rest ih =>
    by_cases ha : a.take 3 = p
    · have hm : a = m := by
        have h2 : List.find? (fun x => decide (x.take 3 = p)) (a :: rest) = some a :=
          List.find?_cons_of_pos _ (by simp [ha])
        rw [h2] at hfind
        exact Option.some.inj hfind
      have hpop : (syncCheck t a).2 = some { sc1 with result := some m } := by
        unfold syncCheck
        rw [ha, htp, hm]
      have hnone : (syncCheck t a).1 p = none := by
        unfold syncCheck
        rw [ha, htp]
        simp
      have hfr : FreshFor (syncCheck t a).1 eid := by
        intro q sc hsc
        by_cases hq : q = p
        · rw [hq, hnone] at hsc; exact absurd hsc (by simp)
        · exact hfx q sc hq (syncCheck_fst_entry t a q sc hsc)
      have hrest := freshFor_processArrivals rest (syncCheck t a).1 eid hfr
      constructor
      · refine ⟨{ sc1 with result := some m }, ?_, rfl, rfl⟩
        simp only [processArrivals, List.mem_append, hpop]
        left; simp
      · intro sc hsc hev
        simp only [processArrivals, List.mem_append, hpop] at hsc
        rcases hsc with hsc | hsc
        · simp at hsc; rw [hsc]; exact ⟨rfl, rfl⟩
        · exact absurd hev (hrest sc hsc)
    · have hfind' : rest.find? (fun x => x.take 3 = p) = some m := by
        rw [List.find?_cons_of_neg _ (by simp [ha])] at hfind
        exact hfind
      have htp' : (syncCheck t a).1 p = some sc1 := by
        rw [syncCheck_fst_ne t a p ha]; exact htp
      have hfx' := freshExcept_syncCheck t a p eid hfx
      have ihr := ih (syncCheck t a).1 htp' hfx' hfind'
      constructor
      · obtain ⟨sc, hsc, hprop⟩ := ihr.1
        refine ⟨sc, ?_, hprop⟩
        simp only [processArrivals, List.mem_append]
        right; exact hsc
      · intro sc hsc hev
        simp only [processArrivals, List.mem_append] at hsc
        rcases hsc with hsc | hsc
        · cases hchk : (syncCheck t a).2 with
          | none => rw [hchk] at hsc; simp at hsc
          | some scp =>
            rw [hchk] at hsc
            simp at hsc
            obtain ⟨sc0, ht0, hevp, _⟩ := syncCheck_snd_events t a scp hchk
            rw [hsc, hevp] at hev
            exact absurd hev (hfx (a.take 3) sc0 ha ht0)
        · exact ihr.2 sc hsc hev

theorem processArrivals_no_match (arrivals : List String) (t : SyncTable)
    (p : String) (eid : Nat) (sc1 : SyncCommand)
    (htp : t p = some sc1) (hfx : FreshExcept t eid p)
    (hfind : arrivals.find? (fun x => x.take 3 = p) = none) :
    (processArrivals t arrivals).1 p = some sc1
    ∧ ∀ sc ∈ (processArrivals t arrivals).2, eid ∉ sc.eventList := by
  induction arrivals generalizing t with
  | nil => exact ⟨htp, by intro sc hsc; simp [processArrivals] at hsc⟩
  | cons a rest ih =>
    have ha : ¬ a.take 3 = p := by
      intro hc
      rw [List.find?_cons_of_pos _ (by simp [hc])] at hfind
      exact absurd hfind (by simp)
    have hfind' : rest.find? (fun x => x.take 3 = p) = none := by
      rw [List.find?_cons_of_neg _ (by simp [ha])] at hfind
      exact hfind
    have htp' : (syncCheck t a).1 p = some sc1 := by
      rw [syncCheck_fst_ne t a p ha]; exact htp
    have ihr := ih (syncCheck t a).1 htp' (freshExcept_syncCheck t a p eid hfx) hfind'
    refine ⟨ihr.1, ?_⟩
    intro sc hsc
    simp only [processArrivals, List.mem_append] at hsc
    rcases hsc with hsc | hsc
    · cases hchk : (syncCheck t a).2 with
      | none => rw [hchk] at hsc; simp at hsc
      | some scp =>
        rw [hchk] at hsc
        simp at hsc
        obtain ⟨sc0, ht0, hevp, _⟩ := syncCheck_snd_events t a scp hchk
        rw [hsc, hevp]
        exact hfx (a.take 3) sc0 ha ht0
    · exact ihr.2 sc hsc

theorem rawAsyncRegister_at (t : SyncTable) (raw : String) (eid : Nat) :
    rawAsyncRegister t raw eid (raw.take 3) =
      some { syncGet t (raw.take 3) with
             eventList := (syncGet t (raw.take 3)).eventList ++ [eid] } := by
  unfold rawAsyncRegister
  rw [if_pos rfl]

theorem rawAsyncRegister_freshExcept (t : SyncTable) (raw : String) (eid : Nat)
    (h : FreshFor t eid) : FreshExcept (rawAsyncRegister t raw eid) eid (raw.take 3) := by
  intro q sc hq hsc
  unfold rawAsyncRegister at hsc
  rw [if_neg hq] at hsc
  exact h q sc hsc

/-- C1 counterexample: a waiter registered for prefix "PWR" (raw command
"PWRQSTN", event handle 0) whose timeout elapses with no matching message
is NOT removed from `_sync_commands` — the entry is still present after
the timeout — and a matching message "PWR01" arriving later resolves the
stale waiter with that message.  This refutes the claim that the waiter's
entry is removed from the correlation table on timeout. -/
theorem c1_timeout_stale_counterexample :
    tableAfterTimeout (rawAsyncRegister emptySyncTable "PWRQSTN" 0) "PWR" =
      some { eventList := [0], result := none }
    ∧ (syncCheck (tableAfterTimeout (rawAsyncRegister emptySyncTable "PWRQSTN" 0)) "PWR01").2 =
      some { eventList := [0], result := some "PWR01" } := by
  constructor
  · decide
  · decide

/-- C1 (amended): with a finite timeout and no matching message arriving
before it elapses, `command_async` fails with `Timeout`
(`asyncio.wait_for` raises), but the waiter's entry REMAINS in
`_sync_commands` (the cancellation removes nothing), so a matching
message arriving after the timeout pops the stale entry and resolves the
stale waiter with that message (without crashing); only then is the entry
removed. -/
theorem c1_timeout_amended (t : SyncTable) (raw : String) (eid : Nat)
    (arrivals : List String)
    (hnm : ∀ m ∈ arrivals, ¬ m.take 3 = raw.take 3) :
    awaitWithTimeout arrivals (raw.take 3) = .error .timeoutErr
    ∧ tableAfterTimeout (rawAsyncRegister t raw eid) = rawAsyncRegister t raw eid
    ∧ tableAfterTimeout (rawAsyncRegister t raw eid) (raw.take 3) =
        some { syncGet t (raw.take 3) with
               eventList := (syncGet t (raw.take 3)).eventList ++ [eid] }
    ∧ ∀ m, m.take 3 = raw.take 3 →
        (syncCheck (tableAfterTimeout (rawAsyncRegister t raw eid)) m).2 =
          some { eventList := (syncGet t (raw.take 3)).eventList ++ [eid],
                 result := some m }
        ∧ (syncCheck (tableAfterTimeout (rawAsyncRegister t raw eid)) m).1 (raw.take 3) =
            none := by
  have hTT : ∀ u : SyncTable, tableAfterTimeout u = u := fun _ => rfl
  refine ⟨?_, rfl, ?_, ?_⟩
  · unfold awaitWithTimeout
    have : arrivals.find? (fun m => m.take 3 = raw.take 3) = none := by
      rw [List.find?_eq_none]
      intro x hx
      simp [hnm x hx]
    rw [this]
  · rw [hTT]
    exact rawAsyncRegister_at t raw eid
  · intro m hm
    have hreg := rawAsyncRegister_at t raw eid
    rw [hTT]
    constructor
    · unfold syncCheck
      rw [hm, hreg]
    · unfold syncCheck
      rw [hm, hreg]
      simp

/-- C1 amended, witness: concrete instance with table empty, raw command
"PWRQSTN", waiter 0, and a single non-matching arrival "AMT01". -/
theorem c1_timeout_amended_witness :
    (∀ m ∈ ["AMT01"], ¬ m.take 3 = "PWRQSTN".take 3)
    ∧ (awaitWithTimeout ["AMT01"] ("PWRQSTN".take 3) = .error .timeoutErr
      ∧ tableAfterTimeout (rawAsyncRegister emptySyncTable "PWRQSTN" 0) =
          rawAsyncRegister emptySyncTable "PWRQSTN" 0
      ∧ tableAfterTimeout (rawAsyncRegister emptySyncTable "PWRQSTN" 0) ("PWRQSTN".take 3) =
          some { syncGet emptySyncTable ("PWRQSTN".take 3) with
                 eventList :=
                   (syncGet emptySyncTable ("PWRQSTN".take 3)).eventList ++ [0] }
      ∧ ∀ m, m.take 3 = "PWRQSTN".take 3 →
          (syncCheck (tableAfterTimeout (rawAsyncRegister emptySyncTable "PWRQSTN" 0)) m).2 =
            some { eventList :=
                     (syncGet emptySyncTable ("PWRQSTN".take 3)).eventList ++ [0],
                   result := some m }
          ∧ (syncCheck (tableAfterTimeout
                (rawAsyncRegister emptySyncTable "PWRQSTN" 0)) m).1 ("PWRQSTN".take 3) =
              none) :=
  ⟨by decide, c1_timeout_amended emptySyncTable "PWRQSTN" 0 ["AMT01"] (by decide)⟩

/-- C2: in `raw_async` the waiter is registered in `_sync_commands`
before the raw command is sent on the socket (the registration action
strictly precedes the send action in the trace of `raw_async`), and the
registered waiter is resolved with exactly the first inbound message
whose leading 3 characters equal the awaited prefix: such a resolution
exists, every resolution delivered to this waiter carries that first
matching message, and if no arriving message matches the prefix the
waiter is never resolved. -/
theorem c2_register_before_send_first_match (t : SyncTable) (raw : String)
    (eid : Nat) (arrivals : List String) (hfresh : FreshFor t eid) :
    ((rawAsyncActions raw eid).findIdx RawAction.isRegister = 0
      ∧ (rawAsyncActions raw eid).findIdx RawAction.isSend = 1)
    ∧ (∀ m, arrivals.find? (fun x => x.take 3 = raw.take 3) = some m →
        (∃ sc ∈ (processArrivals (rawAsyncRegister t raw eid) arrivals).2,
            eid ∈ sc.eventList ∧ sc.result = some m)
        ∧ ∀ sc ∈ (processArrivals (rawAsyncRegister t raw eid) arrivals).2,
            eid ∈ sc.eventList → sc.result = some m)
    ∧ (arrivals.find? (fun x => x.take 3 = raw.take 3) = none →
        ∀ sc ∈ (processArrivals (rawAsyncRegister t raw eid) arrivals).2,
          eid ∉ sc.eventList) := by
  have htp := rawAsyncRegister_at t raw eid
  have hfx := rawAsyncRegister_freshExcept t raw eid hfresh
  refine ⟨⟨rfl, rfl⟩, ?_, ?_⟩
  · intro m hfind
    have hmain := processArrivals_first_match arrivals (rawAsyncRegister t raw eid)
      (raw.take 3) eid _ m htp hfx hfind
    constructor
    · obtain ⟨sc, hsc, hev, hres⟩ := hmain.1
      refine ⟨sc, hsc, ?_, hres⟩
      rw [hev]
      simp
    · intro sc hsc hev
      exact (hmain.2 sc hsc hev).2
  · intro hfind
    exact (processArrivals_no_match arrivals (rawAsyncRegister t raw eid)
      (raw.take 3) eid _ htp hfx hfind).2

theorem mergeEffects_no_resolve (s : RecvState) (u : Updates) :
    ∀ e ∈ mergeEffects s u, Effect.isResolve e = false := by
  intro e he
  unfold mergeEffects at he
  by_cases hu : u.isEmpty
  · rw [if_pos hu] at he
    simp at he
  · rw [if_neg hu] at he
    by_cases hh : s.hassLoop = true
    · rw [if_pos hh] at he
      rcases List.mem_cons.mp he with he | he
      · rw [he]; rfl
      · obtain ⟨a, _, he⟩ := List.mem_map.mp he
        rw [← he]; rfl
    · rw [if_neg hh] at he
      rcases List.mem_cons.mp he with he | he
      · rw [he]; rfl
      · have h2 : e = Effect.updateLostWarning := by simpa using he
        rw [h2]; rfl

theorem mergeState_data (s : RecvState) (u : Updates) (hu : ¬ u.isEmpty = true) :
    (mergeState s u).data = dictMerge s.data u := by
  unfold mergeState
  rw [if_neg hu]

theorem mergeEffects_notify_snapshot (s : RecvState) (u : Updates) (l : Nat)
    (snap : Data) (h : Effect.notifyListener l snap ∈ mergeEffects s u) :
    snap = (mergeState s u).data := by
  unfold mergeEffects at h
  by_cases hu : u.isEmpty
  · rw [if_pos hu] at h
    simp at h
  · rw [mergeState_data s u hu]
    rw [if_neg hu] at h
    by_cases hh : s.hassLoop = true
    · rw [if_pos hh] at h
      rcases List.mem_cons.mp h with h | h
      · exact absurd h (by simp)
      · obtain ⟨a, _, hx⟩ := List.mem_map.mp h
        injection hx with h1 h2
        exact h2.symm
    · rw [if_neg hh] at h
      rcases List.mem_cons.mp h with h | h
      · exact absurd h (by simp)
      · have h2 : Effect.notifyListener l snap = Effect.updateLostWarning := by
          simpa using h
        exact absurd h2 (by simp)

theorem syncPhase_effects (s : RecvState) (m : String) :
    (syncPhase s m).2 = [] ∨ (syncPhase s m).2 = [Effect.resolveSync (m.take 3) m] := by
  unfold syncPhase
  cases h : (syncCheck s.syncTable m).2 with
  | none => left; rfl
  | some sc => right; rfl

theorem syncPhase_data (s : RecvState) (m : String) :
    (syncPhase s m).1.data = s.data := by
  unfold syncPhase
  cases h : (syncCheck s.syncTable m).2 with
  | none => rfl
  | some sc => rfl

theorem syncPhase_keeps (s : RecvState) (m : String) :
    (syncPhase s m).1.soundModes = s.soundModes
    ∧ (syncPhase s m).1.receiverInfo = s.receiverInfo
    ∧ (syncPhase s m).1.hdmiOutSupported = s.hdmiOutSupported
    ∧ (syncPhase s m).1.audioInfoSupported = s.audioInfoSupported
    ∧ (syncPhase s m).1.videoInfoSupported = s.videoInfoSupported := by
  unfold syncPhase
  cases h : (syncCheck s.syncTable m).2 with
  | none => exact ⟨rfl, rfl, rfl, rfl, rfl⟩
  | some sc => exact ⟨rfl, rfl, rfl, rfl, rfl⟩

theorem syncPhase_no_merge_notify (s : RecvState) (m : String) :
    ∀ e ∈ (syncPhase s m).2, Effect.isMerge e = false ∧ Effect.isNotify e = false := by
  intro e he
  rcases syncPhase_effects s m with h | h <;> rw [h] at he
  · simp at he
  · have h2 : e = Effect.resolveSync (m.take 3) m := by simpa using he
    rw [h2]
    exact ⟨rfl, rfl⟩

theorem onMessageAsync_eq_some (st : RecvState) (msg : String) (st1 : RecvState)
    (upd : Updates) (sd : Bool) (h : tryBranch st msg = some (st1, upd, sd)) :
    onMessageAsync st msg =
      ((syncPhase (mergePhase st1 upd).1 msg).1,
       (if sd then [Effect.storeData] else []) ++ (mergePhase st1 upd).2
         ++ (syncPhase (mergePhase st1 upd).1 msg).2) := by
  unfold onMessageAsync
  rw [h]

theorem onMessageAsync_eq_none (st : RecvState) (msg : String)
    (h : tryBranch st msg = none) :
    onMessageAsync st msg = ((syncPhase st msg).1, (syncPhase st msg).2) := by
  unfold onMessageAsync
  rw [h]

/-- C3 counterexample: with a waiter pending for prefix "PWR", the
message "PWR01" produces the effect sequence [merge, notify, resolve]:
the state-store merge is performed first (index 0), the listener
dispatch second (index 1) and the correlation-table resolution last
(index 2) — the correlation check is NOT performed before the
state-store merge and listener notification, refuting the claimed
order. -/
theorem c3_merge_first_counterexample :
    (onMessageAsync pwrWaiterState "PWR01").2.findIdx? Effect.isMerge = some 0
    ∧ (onMessageAsync pwrWaiterState "PWR01").2.findIdx? Effect.isNotify = some 1
    ∧ (onMessageAsync pwrWaiterState "PWR01").2.findIdx? Effect.isResolve = some 2 := by
  exact ⟨rfl, rfl, rfl⟩

/-- C3 (amended): for every inbound message, `_on_message_async`
performs the state-store merge and listener notification BEFORE the
correlation-table check for that same message: its effect list splits
into a part free of resolutions followed by a part free of merges and
notifications. -/
theorem c3_merge_before_resolve_amended (st : RecvState) (msg : String) :
    ∃ pre post, (onMessageAsync st msg).2 = pre ++ post
      ∧ (∀ e ∈ pre, Effect.isResolve e = false)
      ∧ (∀ e ∈ post, Effect.isMerge e = false ∧ Effect.isNotify e = false) := by
  cases htb : tryBranch st msg with
  | none =>
    refine ⟨[], (syncPhase st msg).2, ?_, ?_, syncPhase_no_merge_notify st msg⟩
    · rw [onMessageAsync_eq_none st msg htb]
      rfl
    · intro e he
      simp at he
  | some r =>
    obtain ⟨st1, upd, sd⟩ := r
    refine ⟨(if sd then [Effect.storeData] else []) ++ (mergePhase st1 upd).2,
      (syncPhase (mergePhase st1 upd).1 msg).2, ?_, ?_,
      syncPhase_no_merge_notify _ msg⟩
    · rw [onMessageAsync_eq_some st msg st1 upd sd htb]
    · intro e he
      rcases List.mem_append.mp he with he | he
      · cases sd with
        | true =>
          have h2 : e = Effect.storeData := by simpa using he
          rw [h2]; rfl
        | false => simp at he
      · exact mergeEffects_no_resolve st1 upd e he

/-- C4: a message whose decoding fails (unknown prefix or malformed
payload: `iscp_to_command` raises `ValueError`) is swallowed by the
handler's except clause: `_on_message_async` returns normally, the state
store and every persistent parsing flag are unchanged by that message,
no merge or listener dispatch happens, and the read loop goes on to
process the subsequent messages. -/
theorem c4_decode_failure_soft (st : RecvState) (msg : String)
    (rest : List String) (hdec : iscpToCommand msg = none) :
    (onMessageAsync st msg).1.data = st.data
    ∧ (onMessageAsync st msg).1.soundModes = st.soundModes
    ∧ (onMessageAsync st msg).1.receiverInfo = st.receiverInfo
    ∧ (onMessageAsync st msg).1.hdmiOutSupported = st.hdmiOutSupported
    ∧ (onMessageAsync st msg).1.audioInfoSupported = st.audioInfoSupported
    ∧ (onMessageAsync st msg).1.videoInfoSupported = st.videoInfoSupported
    ∧ (∀ e ∈ (onMessageAsync st msg).2,
        Effect.isMerge e = false ∧ Effect.isNotify e = false)
    ∧ processMessages st (msg :: rest) = processMessages (onMessageAsync st msg).1 rest := by
  have htb : tryBranch st msg = none := by
    unfold tryBranch
    rw [hdec]
  have hcont : processMessages st (msg :: rest) =
      processMessages (onMessageAsync st msg).1 rest := rfl
  rw [onMessageAsync_eq_none st msg htb] at hcont ⊢
  have hk := syncPhase_keeps st msg
  exact ⟨syncPhase_data st msg, hk.1, hk.2.1, hk.2.2.1, hk.2.2.2.1, hk.2.2.2.2,
    syncPhase_no_merge_notify st msg, hcont⟩

/-- C4 witness: the undecodable message "XYZ01" on a fresh receiver
state, followed by one more message. -/
theorem c4_decode_failure_soft_witness :
    iscpToCommand "XYZ01" = none
    ∧ ((onMessageAsync pwrWaiterState "XYZ01").1.data = pwrWaiterState.data
      ∧ (onMessageAsync pwrWaiterState "XYZ01").1.soundModes = pwrWaiterState.soundModes
      ∧ (onMessageAsync pwrWaiterState "XYZ01").1.receiverInfo = pwrWaiterState.receiverInfo
      ∧ (onMessageAsync pwrWaiterState "XYZ01").1.hdmiOutSupported =
          pwrWaiterState.hdmiOutSupported
      ∧ (onMessageAsync pwrWaiterState "XYZ01").1.audioInfoSupported =
          pwrWaiterState.audioInfoSupported
      ∧ (onMessageAsync pwrWaiterState "XYZ01").1.videoInfoSupported =
          pwrWaiterState.videoInfoSupported
      ∧ (∀ e ∈ (onMessageAsync pwrWaiterState "XYZ01").2,
          Effect.isMerge e = false ∧ Effect.isNotify e = false)
      ∧ processMessages pwrWaiterState ["XYZ01", "PWR01"] =
          processMessages (onMessageAsync pwrWaiterState "XYZ01").1 ["PWR01"]) :=
  ⟨by decide, c4_decode_failure_soft pwrWaiterState "XYZ01" ["PWR01"] (by decide)⟩

theorem mergeAttrs_ne (l : List (String × PValue)) (m : String → Option PValue)
    (a : String) (h : ∀ p ∈ l, p.1 ≠ a) : mergeAttrs m l a = m a := by
  induction l generalizing m with
  | nil => rfl
  | cons p rest ih =>
    have hp : p.1 ≠ a := h p (by simp)
    have hrest : ∀ q ∈ rest, q.1 ≠ a := fun q hq => h q (by simp [hq])
    unfold mergeAttrs
    rw [List.foldl_cons]
    have h2 := ih (fun x => if x = p.1 then some p.2 else m x) hrest
    unfold mergeAttrs at h2
    rw [h2]
    simp only []
    rw [if_neg (fun hc => hp hc.symm)]

theorem mergeTop_ne (d : Data) (kv : String × UpdTop) (k : String)
    (hk : kv.1 ≠ k) : mergeTop d kv k = d k := by
  unfold mergeTop
  cases kv.2 with
  | flat v =>
    simp only []
    rw [if_neg (fun hc => hk hc.symm)]
  | attrs l =>
    simp only []
    rw [if_neg (fun hc => hk hc.symm)]

/-- C5: the state-store merge is partial and frame-preserving — a merge
leaves every top-level key not present in the update unchanged, and
within an updated zone leaves every attribute not present in the update
unchanged; the spec's paradigm example (merge `main.power="on"`, then
`main.volume=50`) yields a snapshot carrying both values; and after any
nonempty merge with an event loop available, every registered listener
is dispatched with the complete post-merge snapshot (and every
notification effect of `_on_message_async` carries exactly the final
post-merge data). -/
theorem c5_merge_frame_and_notify :
    (∀ (d : Data) (u : Updates) (k : String), (∀ p ∈ u, p.1 ≠ k) →
      dictMerge d u k = d k)
    ∧ (∀ (d : Data) (zk : String) (l : List (String × PValue)) (a : String)
        (m : String → Option PValue), d zk = some (.attrs m) → (∀ p ∈ l, p.1 ≠ a) →
        ∃ m2, dictMerge d [(zk, .attrs l)] zk = some (.attrs m2) ∧ m2 a = m a)
    ∧ (dataZoneAttr (dictMerge (dictMerge initialData updPowerOn) updVolume50)
          "zone_main" "power" = some (.str "on")
      ∧ dataZoneAttr (dictMerge (dictMerge initialData updPowerOn) updVolume50)
          "zone_main" "volume" = some (.natv 50))
    ∧ (∀ (s : RecvState) (u : Updates), ¬ u.isEmpty = true → s.hassLoop = true →
        ∀ l ∈ s.listeners,
          Effect.notifyListener l (mergeState s u).data ∈ mergeEffects s u)
    ∧ (∀ (st : RecvState) (msg : String) (l : Nat) (snap : Data),
        Effect.notifyListener l snap ∈ (onMessageAsync st msg).2 →
        snap = (onMessageAsync st msg).1.data) := by
  refine ⟨?_, ?_, ⟨by decide, by decide⟩, ?_, ?_⟩
  · intro d u k hu
    induction u generalizing d with
    | nil => rfl
    | cons kv rest ih =>
      have hkv : kv.1 ≠ k := hu kv (by simp)
      have hrest : ∀ p ∈ rest, p.1 ≠ k := fun p hp => hu p (by simp [hp])
      show dictMerge (mergeTop d kv) rest k = d k
      rw [ih (mergeTop d kv) hrest]
      exact mergeTop_ne d kv k hkv
  · intro d zk l a m hd hl
    refine ⟨mergeAttrs m l, ?_, mergeAttrs_ne l m a hl⟩
    show mergeTop d (zk, .attrs l) zk = _
    unfold mergeTop
    simp [hd]
  · intro s u hu hh l hl
    rw [mergeState_data s u hu]
    unfold mergeEffects
    rw [if_neg hu, if_pos hh]
    exact List.mem_cons_of_mem _ (List.mem_map_of_mem _ hl)
  · intro st msg l snap h
    cases htb : tryBranch st msg with
    | none =>
      rw [onMessageAsync_eq_none st msg htb] at h ⊢
      rcases syncPhase_effects st msg with he | he <;> rw [he] at h
      · simp at h
      · have h2 : Effect.notifyListener l snap = Effect.resolveSync (msg.take 3) msg := by
          simpa using h
        exact absurd h2 (by simp)
    | some r =>
      obtain ⟨st1, upd, sd⟩ := r
      rw [onMessageAsync_eq_some st msg st1 upd sd htb] at h ⊢
      simp only [List.mem_append] at h
      rcases h with (h | h) | h
      · cases sd with
        | true =>
          have h2 : Effect.notifyListener l snap = Effect.storeData := by simpa using h
          exact absurd h2 (by simp)
        | false => simp at h
      · have h2 := mergeEffects_notify_snapshot st1 upd l snap h
        rw [h2, syncPhase_data]
        rfl
      · rcases syncPhase_effects (mergePhase st1 upd).1 msg with he | he <;> rw [he] at h
        · simp at h
        · have h2 : Effect.notifyListener l snap =
              Effect.resolveSync (msg.take 3) msg := by simpa using h
          exact absurd h2 (by simp)

/-- C5 witness: concrete instances — the frame parts applied to the
paradigm updates at the untouched key "preset" and untouched attribute
"power", and the listener-dispatch part on a fresh state with
listener 0. -/
theorem c5_merge_frame_and_notify_witness :
    (∀ p ∈ updPowerOn, p.1 ≠ "preset")
    ∧ dictMerge initialData updPowerOn "preset" = initialData "preset"
    ∧ (initialData "zone_main" = some (.attrs initialZoneAttrs)
      ∧ (∀ p ∈ [(("volume" : String), PValue.natv 50)], p.1 ≠ "power")
      ∧ ∃ m2, dictMerge initialData [("zone_main", .attrs [("volume", .natv 50)])]
            "zone_main" = some (.attrs m2) ∧ m2 "power" = initialZoneAttrs "power")
    ∧ (¬ (updPowerOn.isEmpty = true) ∧ pwrWaiterState.hassLoop = true
      ∧ Effect.notifyListener 0 (mergeState pwrWaiterState updPowerOn).data ∈
          mergeEffects pwrWaiterState updPowerOn) :=
  ⟨by decide,
   c5_merge_frame_and_notify.1 initialData updPowerOn "preset" (by decide),
   ⟨rfl, by decide,
    c5_merge_frame_and_notify.2.1 initialData "zone_main"
      [("volume", .natv 50)] "power" initialZoneAttrs rfl (by decide)⟩,
   ⟨by decide, rfl,
    c5_merge_frame_and_notify.2.2.2.1 pwrWaiterState updPowerOn (by decide) rfl 0
      (by simp [pwrWaiterState])⟩⟩

/-- C2 witness: empty table, raw command "PWRQSTN" (prefix "PWR"), waiter
handle 0, arrivals = an unrelated "AMT01" followed by the matching
"PWR01": the waiter resolves with "PWR01". -/
theorem c2_register_before_send_first_match_witness :
    FreshFor emptySyncTable 0
    ∧ (((rawAsyncActions "PWRQSTN" 0).findIdx RawAction.isRegister = 0
        ∧ (rawAsyncActions "PWRQSTN" 0).findIdx RawAction.isSend = 1)
      ∧ (∀ m, ["AMT01", "PWR01"].find? (fun x => x.take 3 = "PWRQSTN".take 3) = some m →
          (∃ sc ∈ (processArrivals (rawAsyncRegister emptySyncTable "PWRQSTN" 0)
              ["AMT01", "PWR01"]).2,
              0 ∈ sc.eventList ∧ sc.result = some m)
          ∧ ∀ sc ∈ (processArrivals (rawAsyncRegister emptySyncTable "PWRQSTN" 0)
              ["AMT01", "PWR01"]).2,
              0 ∈ sc.eventList → sc.result = some m)
      ∧ (["AMT01", "PWR01"].find? (fun x => x.take 3 = "PWRQSTN".take 3) = none →
          ∀ sc ∈ (processArrivals (rawAsyncRegister emptySyncTable "PWRQSTN" 0)
              ["AMT01", "PWR01"]).2,
            0 ∉ sc.eventList)) :=
  ⟨freshFor_empty 0,
   c2_register_before_send_first_match emptySyncTable "PWRQSTN" 0 ["AMT01", "PWR01"]
     (freshFor_empty 0)⟩

/-- C7 counterexample: a payload with no value present (a 1-tuple, for
which `_parse_onkyo_payload` returns `None`, the transient "absent"
outcome) nevertheless makes `_parse_audio_information` /
`_parse_video_information` clear the permanent supported flag — the
transient `None` does NOT leave the flag unchanged, refuting the "and
only then" part of the claim. -/
theorem c7_absent_clears_flag_counterexample :
    parseOnkyoPayload (.tup [.str "audio-information"]) = .absent
    ∧ (parseAudioInformation (.tup [.str "audio-information"]) true).2 = false
    ∧ (parseVideoInformation (.tup [.str "video-information"]) true).2 = false :=
  ⟨rfl, rfl, rfl⟩

/-- C7 (amended): audio/video-information parsing clears the permanent
"attribute unsupported" flag on BOTH a `False` result (the device's N/A
sentinel) and a `None` result (transient absent value) of the
list-payload parser — `values is False or values is None` — and leaves
the flag unchanged exactly when the parser produced a value. -/
theorem c7_unsupported_flag_amended (p : Payload) (s : Bool) :
    ((parseOnkyoPayload p = .unsupported ∨ parseOnkyoPayload p = .absent) →
      (parseAudioInformation p s).2 = false ∧ (parseVideoInformation p s).2 = false)
    ∧ (∀ l, parseOnkyoPayload p = .vals l →
      (parseAudioInformation p s).2 = s ∧ (parseVideoInformation p s).2 = s)
    ∧ (∀ e, parseOnkyoPayload p = .rawElem e →
      (parseAudioInformation p s).2 = s ∧ (parseVideoInformation p s).2 = s) := by
  refine ⟨?_, ?_, ?_⟩
  · intro h
    unfold parseAudioInformation parseVideoInformation
    rcases h with h | h <;> rw [h] <;> exact ⟨rfl, rfl⟩
  · intro l h
    unfold parseAudioInformation parseVideoInformation
    rw [h]
    exact ⟨rfl, rfl⟩
  · intro e h
    unfold parseAudioInformation parseVideoInformation
    rw [h]
    cases e <;> exact ⟨rfl, rfl⟩

/-- C7 amended, witness: the absent payload (1-tuple) clears the flag;
a genuine comma-list payload leaves it set. -/
theorem c7_unsupported_flag_amended_witness :
    ((parseOnkyoPayload (.tup [.str "audio-information"]) = .unsupported
      ∨ parseOnkyoPayload (.tup [.str "audio-information"]) = .absent)
    ∧ (parseAudioInformation (.tup [.str "audio-information"]) true).2 = false
    ∧ (parseVideoInformation (.tup [.str "audio-information"]) true).2 = false)
    ∧ (parseOnkyoPayload (.tup [.str "cmd", .str "a,b"]) = .vals ("a,b".splitOn ",")
    ∧ (parseAudioInformation (.tup [.str "cmd", .str "a,b"]) true).2 = true
    ∧ (parseVideoInformation (.tup [.str "cmd", .str "a,b"]) true).2 = true) :=
  ⟨⟨Or.inr rfl,
    (c7_unsupported_flag_amended (.tup [.str "audio-information"]) true).1 (Or.inr rfl)⟩,
   ⟨rfl,
    (c7_unsupported_flag_amended (.tup [.str "cmd", .str "a,b"]) true).2.1
      ("a,b".splitOn ",") rfl⟩⟩

theorem dedupFirst_mem (a : Nat) (l : List Nat) : a ∈ dedupFirst l ↔ a ∈ l := by
  induction l with
  | nil => simp [dedupFirst]
  | cons x xs ih =>
    simp only [dedupFirst, List.mem_cons, List.mem_filter, ih]
    by_cases hax : a = x
    · simp [hax]
    · simp [hax]

theorem buildZones_map (l : List XmlZoneElem) (srcs : List XmlSelectorElem) :
    (buildZones l srcs).map (fun z => (z.id, z.name)) =
      l.map (fun z => (z.id, z.name.toLower)) := by
  induction l with
  | nil => rfl
  | cons z rest ih => simp [buildZones, ih]

theorem buildZones_nodup_mem (l : List XmlZoneElem) (srcs : List XmlSelectorElem)
    (hnd : (l.map (fun z => z.id)).Nodup) (ze : XmlZoneElem) (hze : ze ∈ l) :
    ∃ z ∈ buildZones l srcs, z.id = ze.id
      ∧ z.sourceIds =
          (srcs.filter (fun s => zoneBit s.zone ze.id)).map (fun s => s.id) := by
  induction l with
  | nil => simp at hze
  | cons z0 rest ih =>
    have hnd2 : z0.id ∉ rest.map (fun z => z.id)
        ∧ (rest.map (fun z => z.id)).Nodup := by
      have h0 := hnd
      rw [List.map_cons, List.nodup_cons] at h0
      exact h0
    rcases List.mem_cons.mp hze with hz | hz
    · have hrepr : rest.all (fun z2 => z2.id ≠ z0.id) = true := by
        rw [List.all_eq_true]
        intro z2 hz2
        simp only [decide_eq_true_eq]
        intro heq
        exact hnd2.1 (heq ▸ List.mem_map_of_mem (fun z => z.id) hz2)
      refine ⟨_, List.mem_cons_self _ _, ?_, ?_⟩
      · rw [hz]
      · show (if rest.all (fun z2 => z2.id ≠ z0.id) then
            (srcs.filter (fun s => zoneBit s.zone z0.id)).map (fun s => s.id)
          else []) = _
        rw [if_pos hrepr, hz]
    · obtain ⟨z, hmem, hid, hsrc⟩ := ih hnd2.2 hz
      exact ⟨z, List.mem_cons_of_mem _ hmem, hid, hsrc⟩

/-- C6: parsing the self-description document drops every zone and
selector element with `value = 0` (the kept elements are exactly the
`value > 0` ones, ids and names preserved), and produces the
many-to-many association: whenever a kept source's zone bitmask has bit
`zoneId - 1` set for a kept zone, that source's id is in the zone's
source list and that zone's id is in the source's zone list.  Zone ids
are assumed pairwise distinct among the kept zones (they key the
`zone_map` dict). -/
theorem c6_self_description_assoc (doc : XmlDoc)
    (hnd : ((doc.zonelist.filter (fun z => 0 < z.value)).map (fun z => z.id)).Nodup) :
    ((fromXml doc).zones.map (fun z => (z.id, z.name)) =
      (doc.zonelist.filter (fun z => 0 < z.value)).map (fun z => (z.id, z.name.toLower)))
    ∧ ((fromXml doc).sources.map (fun s => (s.id, s.name)) =
      (doc.selectorlist.filter (fun s => 0 < s.value)).map (fun s => (s.id, s.name)))
    ∧ ∀ ze ∈ doc.zonelist, 0 < ze.value → ∀ se ∈ doc.selectorlist, 0 < se.value →
        zoneBit se.zone ze.id = true →
        (∃ z ∈ (fromXml doc).zones, z.id = ze.id ∧ se.id ∈ z.sourceIds)
        ∧ ∃ s ∈ (fromXml doc).sources, s.id = se.id ∧ ze.id ∈ s.zoneIds := by
  refine ⟨buildZones_map _ _, ?_, ?_⟩
  · show ((doc.selectorlist.filter (fun s => 0 < s.value)).map _).map _ = _
    rw [List.map_map]
    rfl
  · intro ze hze hzv se hse hsv hbit
    have hzei : ze ∈ doc.zonelist.filter (fun z => 0 < z.value) :=
      List.mem_filter.mpr ⟨hze, by simpa using hzv⟩
    have hsei : se ∈ doc.selectorlist.filter (fun s => 0 < s.value) :=
      List.mem_filter.mpr ⟨hse, by simpa using hsv⟩
    constructor
    · obtain ⟨z, hmem, hid, hsrc⟩ :=
        buildZones_nodup_mem (doc.zonelist.filter (fun z => 0 < z.value))
          (doc.selectorlist.filter (fun s => 0 < s.value)) hnd ze hzei
      refine ⟨z, hmem, hid, ?_⟩
      rw [hsrc]
      exact List.mem_map_of_mem _ (List.mem_filter.mpr ⟨hsei, by simpa using hbit⟩)
    · refine ⟨_, List.mem_map_of_mem _ hsei, rfl, ?_⟩
      exact List.mem_filter.mpr
        ⟨(dedupFirst_mem _ _).mpr (List.mem_map_of_mem _ hzei), by simpa using hbit⟩

/-- C6 witness: the spec's example document — zones 1 and 2 installed
(plus a `value="0"` zone), a source with id 3 and bitmask `0b11` (plus a
`value="0"` selector): the source lands in both zones' lists and both
zones in the source's list. -/
theorem c6_self_description_assoc_witness :
    (((c6doc.zonelist.filter (fun z => 0 < z.value)).map (fun z => z.id)).Nodup)
    ∧ (((fromXml c6doc).zones.map (fun z => (z.id, z.name)) =
        (c6doc.zonelist.filter (fun z => 0 < z.value)).map
          (fun z => (z.id, z.name.toLower)))
      ∧ ((fromXml c6doc).sources.map (fun s => (s.id, s.name)) =
        (c6doc.selectorlist.filter (fun s => 0 < s.value)).map (fun s => (s.id, s.name)))
      ∧ ∀ ze ∈ c6doc.zonelist, 0 < ze.value →
          ∀ se ∈ c6doc.selectorlist, 0 < se.value →
          zoneBit se.zone ze.id = true →
          (∃ z ∈ (fromXml c6doc).zones, z.id = ze.id ∧ se.id ∈ z.sourceIds)
          ∧ ∃ s ∈ (fromXml c6doc).sources, s.id = se.id ∧ ze.id ∈ s.zoneIds) :=
  ⟨by decide, c6_self_description_assoc c6doc (by decide)⟩

theorem accFind_sid (acc : List SrcAcc) (s : String) (e0 : SrcAcc)
    (h : accFind acc s = some e0) : e0.sid = s := by
  simpa using List.find?_some h

theorem accFind_mem (acc : List SrcAcc) (s : String) (e0 : SrcAcc)
    (h : accFind acc s = some e0) : e0 ∈ acc :=
  List.mem_of_find?_eq_some h

theorem accFind_some_any (acc : List SrcAcc) (s : String) (e0 : SrcAcc)
    (h : accFind acc s = some e0) : acc.any (fun e => e.sid = s) = true := by
  rw [List.any_eq_true]
  exact ⟨e0, accFind_mem acc s e0 h, by simp [accFind_sid acc s e0 h]⟩

theorem accFind_none_any (acc : List SrcAcc) (s : String)
    (h : accFind acc s = none) : acc.any (fun e => e.sid = s) = false := by
  rw [List.any_eq_false]
  intro e he
  simp only [decide_eq_true_eq]
  intro heq
  have h2 := List.find?_eq_none.mp h e he
  simp [heq] at h2

theorem accFind_map_update (acc : List SrcAcc) (v : String) (zid : Nat) (s : String) :
    accFind (acc.map (fun e =>
        if e.sid = v then { e with zoneIds := e.zoneIds ++ [zid] } else e)) s
      = (accFind acc s).map (fun e =>
          if e.sid = v then { e with zoneIds := e.zoneIds ++ [zid] } else e) := by
  induction acc with
  | nil => rfl
  | cons e0 rest ih =>
    have hg : (if e0.sid = v then { e0 with zoneIds := e0.zoneIds ++ [zid] }
        else e0).sid = e0.sid := by
      by_cases hv : e0.sid = v <;> simp [hv]
    by_cases h0 : e0.sid = s
    · have hp : decide ((if e0.sid = v then { e0 with zoneIds := e0.zoneIds ++ [zid] }
          else e0).sid = s) = true := by
        rw [hg, h0]
        simp
      have hp0 : decide (e0.sid = s) = true := by
        rw [h0]
        simp
      unfold accFind
      rw [List.map_cons,
        List.find?_cons_of_pos (p := fun (e : SrcAcc) => decide (e.sid = s)) _ hp,
        List.find?_cons_of_pos (p := fun (e : SrcAcc) => decide (e.sid = s)) _ hp0]
      rfl
    · have hp : ¬ decide ((if e0.sid = v then { e0 with zoneIds := e0.zoneIds ++ [zid] }
          else e0).sid = s) = true := by
        rw [hg]
        simp [h0]
      have hp0 : ¬ decide (e0.sid = s) = true := by
        simp [h0]
      unfold accFind
      rw [List.map_cons,
        List.find?_cons_of_neg (p := fun (e : SrcAcc) => decide (e.sid = s)) _ hp,
        List.find?_cons_of_neg (p := fun (e : SrcAcc) => decide (e.sid = s)) _ hp0]
      exact ih

theorem map_update_sids (acc : List SrcAcc) (v : String) (zid : Nat) :
    (acc.map (fun e =>
        if e.sid = v then { e with zoneIds := e.zoneIds ++ [zid] } else e)).map
      (fun e => e.sid) = acc.map (fun e => e.sid) := by
  induction acc with
  | nil => rfl
  | cons e rest ih =>
    by_cases h : e.sid = v <;> simp [h, ih]

theorem stepVals_nil (zid : Nat) (acc : List SrcAcc) : stepVals zid [] acc = acc := rfl

theorem stepVals_cons (zid : Nat) (v : CmdValue) (rest : List CmdValue)
    (acc : List SrcAcc) :
    stepVals zid (v :: rest) acc =
      stepVals zid rest
        (if reservedSid v.sid then acc
         else if acc.any (fun e => e.sid = v.sid) then
           acc.map (fun e =>
             if e.sid = v.sid then { e with zoneIds := e.zoneIds ++ [zid] } else e)
         else acc ++ [freshSrc zid v]) := rfl

theorem nonresSids_nil : nonresSids [] = [] := rfl

theorem nonresSids_cons_res (v : CmdValue) (rest : List CmdValue)
    (h : reservedSid v.sid = true) : nonresSids (v :: rest) = nonresSids rest := by
  simp [nonresSids, nonresVals, h]

theorem nonresSids_cons_nonres (v : CmdValue) (rest : List CmdValue)
    (h : reservedSid v.sid = false) :
    nonresSids (v :: rest) = v.sid :: nonresSids rest := by
  simp [nonresSids, nonresVals, h]

theorem stepVals_nodup (zid : Nat) (vals : List CmdValue) (acc : List SrcAcc)
    (h : ((acc.map (fun e => e.sid))).Nodup) :
    (((stepVals zid vals acc).map (fun e => e.sid))).Nodup := by
  induction vals generalizing acc with
  | nil => exact h
  | cons v rest ih =>
    rw [stepVals_cons]
    by_cases hres : reservedSid v.sid = true
    · rw [if_pos hres]
      exact ih acc h
    · rw [if_neg (by simp [hres])]
      by_cases hany : acc.any (fun e => e.sid = v.sid) = true
      · rw [if_pos hany]
        apply ih
        rw [map_update_sids]
        exact h
      · rw [if_neg hany]
        apply ih
        rw [List.map_append]
        simp only [List.map_cons, List.map_nil]
        rw [List.nodup_append]
        refine ⟨h, List.nodup_singleton _, ?_⟩
        intro x hx hx2
        have hx3 : x = (freshSrc zid v).sid := by simpa using hx2
        rw [hx3] at hx
        obtain ⟨e, he, hesid⟩ := List.mem_map.mp hx
        exact hany (List.any_eq_true.mpr ⟨e, he, by simp [freshSrc] at hesid ⊢; exact hesid⟩)

theorem stepVals_find (zid : Nat) (vals : List CmdValue) (acc : List SrcAcc)
    (s : String) (hvnd : (nonresSids vals).Nodup) :
    (∀ e0, accFind acc s = some e0 →
      accFind (stepVals zid vals acc) s =
        some { e0 with zoneIds := e0.zoneIds ++
          (if s ∈ nonresSids vals then [zid] else []) })
    ∧ (accFind acc s = none →
      if s ∈ nonresSids vals then
        ∃ nm, accFind (stepVals zid vals acc) s =
          some { sid := s, id := (hexToNat? s).getD 0, name := nm, zoneIds := [zid] }
      else accFind (stepVals zid vals acc) s = none) := by
  induction vals generalizing acc with
  | nil =>
    constructor
    · intro e0 h0
      rw [stepVals_nil, if_neg (by simp [nonresSids_nil]), List.append_nil]
      exact h0
    · intro h0
      rw [stepVals_nil, if_neg (by simp [nonresSids_nil])]
      exact h0
  | cons v rest ih =>
    rw [stepVals_cons]
    by_cases hres : reservedSid v.sid = true
    · rw [if_pos hres, nonresSids_cons_res v rest hres]
      rw [nonresSids_cons_res v rest hres] at hvnd
      exact ih acc hvnd
    · have hresf : reservedSid v.sid = false := by
        cases hb : reservedSid v.sid
        · rfl
        · exact absurd hb hres
      rw [if_neg (by simp [hresf]), nonresSids_cons_nonres v rest hresf]
      rw [nonresSids_cons_nonres v rest hresf] at hvnd
      have hvnd2 := List.nodup_cons.mp hvnd
      by_cases hany : acc.any (fun e => e.sid = v.sid) = true
      · rw [if_pos hany]
        constructor
        · intro e0 h0
          have he0 := accFind_sid acc s e0 h0
          by_cases hs : s = v.sid
          · have h1 : accFind (acc.map (fun e =>
                if e.sid = v.sid then { e with zoneIds := e.zoneIds ++ [zid] }
                else e)) s = some { e0 with zoneIds := e0.zoneIds ++ [zid] } := by
              rw [accFind_map_update, h0]
              simp only [Option.map_some']
              rw [if_pos (by rw [he0, hs])]
            have h2 := (ih _ hvnd2.2).1 _ h1
            rw [h2]
            have hnot : s ∉ nonresSids rest := by
              rw [hs]
              exact hvnd2.1
            rw [if_neg hnot, if_pos (by rw [hs]; exact List.mem_cons_self _ _)]
            simp
          · have h1 : accFind (acc.map (fun e =>
                if e.sid = v.sid then { e with zoneIds := e.zoneIds ++ [zid] }
                else e)) s = some e0 := by
              rw [accFind_map_update, h0]
              simp only [Option.map_some']
              rw [if_neg (by rw [he0]; exact fun hc => hs hc)]
            have h2 := (ih _ hvnd2.2).1 _ h1
            rw [h2]
            by_cases hmem : s ∈ nonresSids rest
            · rw [if_pos hmem, if_pos (List.mem_cons_of_mem _ hmem)]
            · rw [if_neg hmem, if_neg (by simp [hs, hmem])]
        · intro h0
          by_cases hs : s = v.sid
          · exfalso
            have h2 := accFind_none_any acc s h0
            rw [hs] at h2
            rw [h2] at hany
            exact Bool.false_ne_true hany
          · have h1 : accFind (acc.map (fun e =>
                if e.sid = v.sid then { e with zoneIds := e.zoneIds ++ [zid] }
                else e)) s = none := by
              rw [accFind_map_update, h0]
              rfl
            have h2 := (ih _ hvnd2.2).2 h1
            by_cases hmem : s ∈ nonresSids rest
            · rw [if_pos hmem] at h2
              rw [if_pos (List.mem_cons_of_mem _ hmem)]
              exact h2
            · rw [if_neg hmem] at h2
              rw [if_neg (by simp [hs, hmem])]
              exact h2
      · rw [if_neg hany]
        constructor
        · intro e0 h0
          have hs : ¬ s = v.sid := by
            intro hs
            have h2 := accFind_some_any acc s e0 h0
            rw [hs] at h2
            exact hany h2
          have h1 : accFind (acc ++ [freshSrc zid v]) s = some e0 := by
            unfold accFind at h0 ⊢
            rw [List.find?_append, h0]
            rfl
          have h2 := (ih _ hvnd2.2).1 _ h1
          rw [h2]
          by_cases hmem : s ∈ nonresSids rest
          · rw [if_pos hmem, if_pos (List.mem_cons_of_mem _ hmem)]
          · rw [if_neg hmem, if_neg (by simp [hs, hmem])]
        · intro h0
          by_cases hs : s = v.sid
          · have h1 : accFind (acc ++ [freshSrc zid v]) s = some (freshSrc zid v) := by
              unfold accFind at h0 ⊢
              rw [List.find?_append, h0]
              simp [freshSrc, hs]
            have h2 := (ih _ hvnd2.2).1 _ h1
            rw [if_pos (by rw [hs]; exact List.mem_cons_self _ _)]
            refine ⟨normName v.name, ?_⟩
            rw [h2]
            have hnot : s ∉ nonresSids rest := by
              rw [hs]
              exact hvnd2.1
            rw [if_neg hnot, hs]
            simp [freshSrc]
          · have h1 : accFind (acc ++ [freshSrc zid v]) s = none := by
              unfold accFind at h0 ⊢
              rw [List.find?_append, h0]
              simp only [Option.none_or]
              rw [List.find?_cons_of_neg (p := fun (e : SrcAcc) => decide (e.sid = s)) _
                (by simp [freshSrc]; exact fun hc => hs hc.symm)]
              rfl
            have h2 := (ih _ hvnd2.2).2 h1
            by_cases hmem : s ∈ nonresSids rest
            · rw [if_pos hmem] at h2
              rw [if_pos (List.mem_cons_of_mem _ hmem)]
              exact h2
            · rw [if_neg hmem] at h2
              rw [if_neg (by simp [hs, hmem])]
              exact h2

theorem foldZones_nil (tbl : CmdTable) (acc : List SrcAcc) :
    foldZones tbl [] acc = acc := rfl

theorem foldZones_cons (tbl : CmdTable) (zid : Nat) (rest : List Nat)
    (acc : List SrcAcc) :
    foldZones tbl (zid :: rest) acc =
      foldZones tbl rest (stepVals zid (zoneVals tbl zid) acc) := rfl

theorem foldZones_nodup (tbl : CmdTable) (zids : List Nat) (acc : List SrcAcc)
    (h : ((acc.map (fun e => e.sid))).Nodup) :
    (((foldZones tbl zids acc).map (fun e => e.sid))).Nodup := by
  induction zids generalizing acc with
  | nil => exact h
  | cons zid rest ih =>
    rw [foldZones_cons]
    exact ih _ (stepVals_nodup zid (zoneVals tbl zid) acc h)

theorem foldZones_find (tbl : CmdTable) (zids : List Nat) (s : String)
    (hvnd : ∀ zid ∈ zids, (nonresSids (zoneVals tbl zid)).Nodup) :
    ∀ acc : List SrcAcc,
    (∀ e0, accFind acc s = some e0 →
      ∃ e, accFind (foldZones tbl zids acc) s = some e
        ∧ e.sid = e0.sid ∧ e.id = e0.id
        ∧ e.zoneIds = e0.zoneIds ++
            zids.filter (fun zid => decide (s ∈ nonresSids (zoneVals tbl zid))))
    ∧ (accFind acc s = none →
      ((∀ zid ∈ zids, s ∉ nonresSids (zoneVals tbl zid)) →
        accFind (foldZones tbl zids acc) s = none)
      ∧ ∀ zid0 ∈ zids, s ∈ nonresSids (zoneVals tbl zid0) →
        ∃ e, accFind (foldZones tbl zids acc) s = some e
          ∧ e.sid = s ∧ e.id = (hexToNat? s).getD 0
          ∧ e.zoneIds = zids.filter
              (fun zid => decide (s ∈ nonresSids (zoneVals tbl zid)))) := by
  induction zids with
  | nil =>
    intro acc
    constructor
    · intro e0 h0
      refine ⟨e0, h0, rfl, rfl, ?_⟩
      rw [List.filter_nil, List.append_nil]
    · intro h0
      exact ⟨fun _ => h0, fun zid0 hz0 => absurd hz0 (by simp)⟩
  | cons zid rest ih =>
    intro acc
    have hvhead := hvnd zid (List.mem_cons_self _ _)
    have hvrest : ∀ z ∈ rest, (nonresSids (zoneVals tbl z)).Nodup :=
      fun z hz => hvnd z (List.mem_cons_of_mem _ hz)
    have hstep := stepVals_find zid (zoneVals tbl zid) acc s hvhead
    have ihr := ih hvrest (stepVals zid (zoneVals tbl zid) acc)
    constructor
    · intro e0 h0
      have h1 := hstep.1 e0 h0
      obtain ⟨e, he, hsid, hid, hz⟩ := ihr.1 _ h1
      refine ⟨e, by rw [foldZones_cons]; exact he, by simpa using hsid,
        by simpa using hid, ?_⟩
      rw [hz]
      by_cases hmem : s ∈ nonresSids (zoneVals tbl zid)
      · rw [if_pos hmem, List.filter_cons, if_pos (by simp [hmem])]
        simp
      · rw [if_neg hmem, List.filter_cons, if_neg (by simp [hmem]), List.append_nil]
    · intro h0
      by_cases hmem : s ∈ nonresSids (zoneVals tbl zid)
      · have h2 := hstep.2 h0
        rw [if_pos hmem] at h2
        obtain ⟨nm, h1⟩ := h2
        obtain ⟨e, he, hsid, hid, hz⟩ := ihr.1 _ h1
        constructor
        · intro hall
          exact absurd hmem (hall zid (List.mem_cons_self _ _))
        · intro zid0 _ _
          refine ⟨e, by rw [foldZones_cons]; exact he, by simpa using hsid,
            by simpa using hid, ?_⟩
          rw [hz, List.filter_cons, if_pos (by simp [hmem])]
          rfl
      · have h2 := hstep.2 h0
        rw [if_neg hmem] at h2
        have ih2 := ihr.2 h2
        constructor
        · intro hall
          rw [foldZones_cons]
          exact ih2.1 (fun z hz => hall z (List.mem_cons_of_mem _ hz))
        · intro zid0 hzid0 hdecl
          have hzid0r : zid0 ∈ rest := by
            rcases List.mem_cons.mp hzid0 with h | h
            · exact absurd (h ▸ hdecl) hmem
            · exact h
          obtain ⟨e, he, hsid, hid, hz⟩ := ih2.2 zid0 hzid0r hdecl
          refine ⟨e, by rw [foldZones_cons]; exact he, hsid, hid, ?_⟩
          rw [hz, List.filter_cons, if_neg (by simp [hmem])]

theorem accFind_of_mem_nodup (acc : List SrcAcc) (e : SrcAcc)
    (hnd : (acc.map (fun x => x.sid)).Nodup) (he : e ∈ acc) :
    accFind acc e.sid = some e := by
  induction acc with
  | nil => simp at he
  | cons e0 rest ih =>
    have hnd2 : e0.sid ∉ rest.map (fun x => x.sid)
        ∧ (rest.map (fun x => x.sid)).Nodup := by
      have h0 := hnd
      rw [List.map_cons, List.nodup_cons] at h0
      exact h0
    rcases List.mem_cons.mp he with h | h
    · rw [h]
      unfold accFind
      rw [List.find?_cons_of_pos (p := fun (x : SrcAcc) => decide (x.sid = e0.sid)) _
        (by simp)]
    · have hne : ¬ e0.sid = e.sid := by
        intro hc
        exact hnd2.1 (hc ▸ List.mem_map_of_mem _ h)
      unfold accFind
      rw [List.find?_cons_of_neg (p := fun (x : SrcAcc) => decide (x.sid = e.sid)) _
        (by simp [hne])]
      exact ih hnd2.2 h

theorem accFind_ne_none_iff (acc : List SrcAcc) (s : String) :
    accFind acc s ≠ none ↔ ∃ e ∈ acc, e.sid = s := by
  rw [Ne, accFind, List.find?_eq_none]
  push_neg
  simp

/-- C8: with no structured self-description but a UDP discovery reply,
inventory resolution returns the synthesized default inventory (and a
present structured info is never replaced); in the synthesized
inventory, every non-reserved (non-UP/DOWN/QSTN) enumerated value of the
zones' selector commands yields exactly one shared source entry — the
entry keys are pairwise distinct, a key is present iff some zone's
selector command declares it — and each entry's zone list is exactly
the zones (in order 1-4) whose selector command declares that value;
the published source list is these shared entries.  Each zone's selector
command is assumed to declare pairwise distinct value keys (they are
Python dict keys). -/
theorem c8_default_inventory (tbl : CmdTable) (u : UdpInfo)
    (hvnd : ∀ zid ∈ defaultZoneIds, (nonresSids (zoneVals tbl zid)).Nodup) :
    fallbackInfo tbl none (some u) = some (defaultInfo tbl u.modelName u.identifier)
    ∧ (∀ i udp2, fallbackInfo tbl (some i) udp2 = some i)
    ∧ ((defaultSources tbl).map (fun e => e.sid)).Nodup
    ∧ (∀ s : String, (∃ e ∈ defaultSources tbl, e.sid = s) ↔
        ∃ zid ∈ defaultZoneIds, s ∈ nonresSids (zoneVals tbl zid))
    ∧ (∀ e ∈ defaultSources tbl,
        e.zoneIds = defaultZoneIds.filter
          (fun zid => decide (e.sid ∈ nonresSids (zoneVals tbl zid))))
    ∧ (defaultInfo tbl u.modelName u.identifier).sources =
        (defaultSources tbl).map (fun e =>
          { id := e.id, name := e.name, zoneIds := e.zoneIds }) := by
  have hnodup : ((defaultSources tbl).map (fun e => e.sid)).Nodup :=
    foldZones_nodup tbl defaultZoneIds [] (by simp)
  have hiff : ∀ s : String, (∃ e ∈ defaultSources tbl, e.sid = s) ↔
      ∃ zid ∈ defaultZoneIds, s ∈ nonresSids (zoneVals tbl zid) := by
    intro s
    constructor
    · intro h
      obtain ⟨e, he, hesid⟩ := h
      by_contra hno
      push_neg at hno
      have h2 := ((foldZones_find tbl defaultZoneIds s hvnd) []).2 rfl
      have h3 := h2.1 (fun z hz => hno z hz)
      exact (accFind_ne_none_iff _ _).mpr ⟨e, he, hesid⟩ h3
    · intro h
      obtain ⟨zid0, hz0, hdecl⟩ := h
      have h2 := ((foldZones_find tbl defaultZoneIds s hvnd) []).2 rfl
      obtain ⟨e, he, hsid, _, _⟩ := h2.2 zid0 hz0 hdecl
      exact ⟨e, List.mem_of_find?_eq_some he, hsid⟩
  refine ⟨rfl, ?_, hnodup, hiff, ?_, rfl⟩
  · intro i udp2
    cases udp2 <;> rfl
  · intro e he
    have hfind := accFind_of_mem_nodup (defaultSources tbl) e hnodup he
    have hex : ∃ zid ∈ defaultZoneIds, e.sid ∈ nonresSids (zoneVals tbl zid) :=
      (hiff e.sid).mp ⟨e, he, rfl⟩
    obtain ⟨zid0, hz0, hdecl⟩ := hex
    have h2 := ((foldZones_find tbl defaultZoneIds e.sid hvnd) []).2 rfl
    obtain ⟨e2, he2, _, _, hz2⟩ := h2.2 zid0 hz0 hdecl
    have he2d : accFind (defaultSources tbl) e.sid = some e2 := he2
    have heq : e2 = e := by
      rw [hfind] at he2d
      exact (Option.some.inj he2d).symm
    rw [heq] at hz2
    exact hz2

/-- C8 witness: the concrete table `c8tbl` — main declares 10 (BD/DVD)
and 23 (CD) plus reserved tokens, zone2 declares 23 plus a reserved
token — and a UDP reply. -/
theorem c8_default_inventory_witness :
    (∀ zid ∈ defaultZoneIds, (nonresSids (zoneVals c8tbl zid)).Nodup)
    ∧ (fallbackInfo c8tbl none (some { modelName := "TX", identifier := "ID" }) =
        some (defaultInfo c8tbl "TX" "ID")
      ∧ (∀ i udp2, fallbackInfo c8tbl (some i) udp2 = some i)
      ∧ ((defaultSources c8tbl).map (fun e => e.sid)).Nodup
      ∧ (∀ s : String, (∃ e ∈ defaultSources c8tbl, e.sid = s) ↔
          ∃ zid ∈ defaultZoneIds, s ∈ nonresSids (zoneVals c8tbl zid))
      ∧ (∀ e ∈ defaultSources c8tbl,
          e.zoneIds = defaultZoneIds.filter
            (fun zid => decide (e.sid ∈ nonresSids (zoneVals c8tbl zid))))
      ∧ (defaultInfo c8tbl "TX" "ID").sources =
          (defaultSources c8tbl).map (fun e =>
            { id := e.id, name := e.name, zoneIds := e.zoneIds })) :=
  ⟨by decide, c8_default_inventory c8tbl { modelName := "TX", identifier := "ID" }
    (by decide)⟩

/-- C10: inventory resolution is attempted at most once per receiver:
the first call of `get_all_receiver_info` sets the retrieved flag as its
first action, before any query; any call on a state with the flag set
returns immediately with no queries and no state change — in
particular the call right after the first one — and when the first
attempt obtained neither a structured info nor a UDP reply, the cached
result stays `None` forever, whatever a later environment would have
answered. -/
theorem c10_resolve_once (tbl : CmdTable) (env env2 : Option ReceiverInfo × Option UdpInfo)
    (st : ResolverState) (hfresh : st.retrieved = false) :
    (getAllReceiverInfo tbl env st).2 =
        [.setRetrievedFlag, .queryReceiverInformation, .queryUdp]
    ∧ (getAllReceiverInfo tbl env st).2.head? = some .setRetrievedFlag
    ∧ (getAllReceiverInfo tbl env st).1.retrieved = true
    ∧ (∀ st2 : ResolverState, st2.retrieved = true →
        getAllReceiverInfo tbl env2 st2 = (st2, []))
    ∧ getAllReceiverInfo tbl env2 (getAllReceiverInfo tbl env st).1 =
        ((getAllReceiverInfo tbl env st).1, [])
    ∧ (env = (none, none) → st.info = none → st.udpInfo = none →
        (getAllReceiverInfo tbl env st).1.info = none
        ∧ (getReceiverInfo tbl env2 (getAllReceiverInfo tbl env st).1).2 = none) := by
  have hgo : getAllReceiverInfo tbl env st =
      ({ retrieved := true
         info := fallbackInfo tbl
           (match env.1 with | some i => some i | none => st.info)
           (match st.udpInfo with | some u => some u | none => env.2)
         udpInfo := match st.udpInfo with | some u => some u | none => env.2 },
       [.setRetrievedFlag, .queryReceiverInformation, .queryUdp]) := by
    unfold getAllReceiverInfo
    rw [hfresh, if_neg Bool.false_ne_true]
  have hsecond : ∀ st2 : ResolverState, st2.retrieved = true →
      getAllReceiverInfo tbl env2 st2 = (st2, []) := by
    intro st2 h2
    unfold getAllReceiverInfo
    rw [h2, if_pos rfl]
  have hinfo_none : env = (none, none) → st.info = none → st.udpInfo = none →
      (getAllReceiverInfo tbl env st).1.info = none := by
    intro henv hinfo hudp
    rw [hgo, henv, hinfo, hudp]
    rfl
  refine ⟨by rw [hgo], by rw [hgo]; rfl, by rw [hgo], hsecond,
    hsecond _ (by rw [hgo]), ?_⟩
  intro henv hinfo hudp
  refine ⟨hinfo_none henv hinfo hudp, ?_⟩
  unfold getReceiverInfo
  rw [hsecond _ (by rw [hgo])]
  exact hinfo_none henv hinfo hudp

/-- C10 witness: a fresh resolver state, a first attempt that obtains
nothing, and a later environment that would have an answer: the second
call still issues nothing and keeps returning `None`. -/
theorem c10_resolve_once_witness :
    freshResolverState.retrieved = false
    ∧ ((getAllReceiverInfo c8tbl (none, none) freshResolverState).2 =
        [.setRetrievedFlag, .queryReceiverInformation, .queryUdp]
      ∧ (getAllReceiverInfo c8tbl (none, none) freshResolverState).2.head? =
          some .setRetrievedFlag
      ∧ (getAllReceiverInfo c8tbl (none, none) freshResolverState).1.retrieved = true
      ∧ (∀ st2 : ResolverState, st2.retrieved = true →
          getAllReceiverInfo c8tbl (some dummyInfo, none) st2 = (st2, []))
      ∧ getAllReceiverInfo c8tbl (some dummyInfo, none)
          (getAllReceiverInfo c8tbl (none, none) freshResolverState).1 =
          ((getAllReceiverInfo c8tbl (none, none) freshResolverState).1, [])
      ∧ (((none : Option ReceiverInfo), (none : Option UdpInfo)) = (none, none) →
          freshResolverState.info = none → freshResolverState.udpInfo = none →
          (getAllReceiverInfo c8tbl (none, none) freshResolverState).1.info = none
          ∧ (getReceiverInfo c8tbl (some dummyInfo, none)
              (getAllReceiverInfo c8tbl (none, none) freshResolverState).1).2 = none)) :=
  ⟨rfl, c10_resolve_once c8tbl (none, none) (some dummyInfo, none)
    freshResolverState rfl⟩

/-- C9 (modelled from the spec; the walk is absent from the sources):
walk discovery on a device cycling CD, TUNER, CD terminates on the
second sight of the first-seen value "CD" and returns exactly
["CD", "TUNER"]; a walk whose intermediate command fails aborts with an
error; and on EVERY exit path — success, failure, or exhaustion — the
device's prior power/mute/selector state is restored. -/
theorem c9_walk_discovery_spec :
    (walkDiscovery priorExample [some "CD", some "TUNER", some "CD"]).1 =
      .ok ["CD", "TUNER"]
    ∧ (walkDiscovery priorExample [some "CD", none]).1 = .error .cmdFailed
    ∧ ∀ (prior : DeviceState) (replies : List (Option String)),
        WalkAction.restore prior ∈ (walkDiscovery prior replies).2 := by
  refine ⟨rfl, rfl, ?_⟩
  intro prior replies
  cases replies with
  | nil => simp [walkDiscovery]
  | cons r rest =>
    cases r with
    | none => simp [walkDiscovery]
    | some r0 => simp [walkDiscovery]

end Onkyo
